import Mathlib

/-!
Verification of the woldecks-board authorization subsystem.

The repository contains two independent implementations of the same
bulletin-board authorization core:

* a Cloudflare Worker backed by Supabase tables (`worker/index.js`,
  here `src/unnamed/part_001`), modelled in namespace `Worker`;
* a local Node http server backed by a JSON file and an in-memory
  session map (`server.js`, here `src/unnamed/part_003`), modelled in
  namespace `LocalSrv`.

The cryptographic primitives (PBKDF2, SHA-256, HMAC) are modelled as
function parameters: every theorem quantifies over them, so the results
hold for the real primitives.  Randomness (salts, UUID tokens) is
modelled by passing the drawn values as explicit arguments.

JavaScript semantics that matter here and are baked into the embedding:

* `new Uint8Array(n)` truncates a fractional length (ES `ToIndex` applies
  `ToIntegerOrInfinity`), so `hexToBytes` on an odd-length string drops
  the trailing nibble and never throws;
* assigning `NaN` to a `Uint8Array` element stores `0` (`ToUint8`);
* `Buffer.from(s, "hex")` stops decoding at the first invalid or
  incomplete pair;
* `crypto.timingSafeEqual` throws on length mismatch; the local server
  catches this and returns `false`.
-/

/-- A byte as stored in a JS `Uint8Array` or Node `Buffer`. -/
abbrev Byte := Fin 256

/-- Lowercase hex digit for a value below 16, as produced by
JS `Number.prototype.toString(16)`. -/
def hexDigitChar (n : Nat) : Char :=
  if n < 10 then Char.ofNat (48 + n) else Char.ofNat (87 + n)

/-- The two-character lowercase hex encoding of one byte:
`b.toString(16).padStart(2, "0")`. -/
def byteToHexPair (b : Byte) : List Char :=
  [hexDigitChar (b.val / 16), hexDigitChar (b.val % 16)]

/-- `bytesToHex` from the Worker (also `buf.toString("hex")` in Node):
map each byte to its padded hex pair and join. -/
def bytesToHex (l : List Byte) : String :=
  ⟨(l.map byteToHexPair).flatten⟩

/-- Value of a single hex digit (upper or lower case), `none` otherwise. -/
def hexDigitVal (c : Char) : Option (Fin 16) :=
  if h : 48 ≤ c.toNat ∧ c.toNat ≤ 57 then some ⟨c.toNat - 48, by omega⟩
  else if h2 : 97 ≤ c.toNat ∧ c.toNat ≤ 102 then some ⟨c.toNat - 87, by omega⟩
  else if h3 : 65 ≤ c.toNat ∧ c.toNat ≤ 70 then some ⟨c.toNat - 55, by omega⟩
  else none

/-- Node `Buffer.from(s, "hex")`: decode two hex digits at a time and
stop (without throwing) at the first invalid or incomplete pair. -/
def hexDecodeTrunc : List Char → List Byte
  | c1 :: c2 :: rest =>
    match hexDigitVal c1, hexDigitVal c2 with
    | some h, some l => ⟨16 * h.val + l.val, by omega⟩ :: hexDecodeTrunc rest
    | _, _ => []
  | _ => []

/-- The Worker's `safeEqualHex`: length check, then a fold of
`charCodeAt` XORs ORed together, compared with zero. -/
def safeEqualHex (a b : String) : Bool :=
  if a.length ≠ b.length then false
  else ((a.data.zip b.data).foldl (fun diff p => diff ||| (p.1.toNat ^^^ p.2.toNat)) 0) == 0

/-- Result of the Worker's `splitToken`: the client-supplied opaque string
split into its `token` (secret) and `salt` parts. -/
structure TokenParts where
  token : String
  salt : String
deriving DecidableEq, Repr

/-- Index of the last occurrence of the separator character (JS
`raw.lastIndexOf(".")`), `none` when absent. -/
def lastDotIdx : List Char → Option Nat
  | [] => none
  | c :: rest =>
    match lastDotIdx rest with
    | some i => some (i + 1)
    | none => if c = '.' then some 0 else none

/-- The Worker's `splitToken`: `null` on a missing or empty string or when
no separator occurs, otherwise split at the last separator. -/
def splitToken (raw : Option String) : Option TokenParts :=
  match raw with
  | none => none
  | some s =>
    if s.isEmpty then none
    else
      match lastDotIdx s.data with
      | none => none
      | some i => some ⟨⟨s.data.take i⟩, ⟨s.data.drop (i + 1)⟩⟩

/-- Model of JS `Number.parseInt(s, 16)`: skip leading whitespace, optional
sign, optional `0x` prefix, then the longest hex-digit prefix; `none`
models `NaN` (no digits). -/
def jsParseIntHex (s : String) : Option Int :=
  let l := s.data.dropWhile (fun c => c.isWhitespace)
  let signAndRest : Int × List Char :=
    match l with
    | '-' :: rest => (-1, rest)
    | '+' :: rest => (1, rest)
    | _ => (1, l)
  let l2 := signAndRest.2
  let l3 :=
    match l2 with
    | '0' :: c :: rest => if c = 'x' ∨ c = 'X' then rest else l2
    | _ => l2
  let digits := l3.takeWhile (fun c => (hexDigitVal c).isSome)
  if digits = [] then none
  else some (signAndRest.1 *
    Int.ofNat (digits.foldl (fun acc c => 16 * acc + ((hexDigitVal c).getD 0).val) 0))

/-- JS `ToUint8` applied to a `parseInt` result when assigning into a
`Uint8Array`: `NaN` becomes `0`, integers are taken modulo 256. -/
def toUint8 (v : Option Int) : Byte :=
  match v with
  | none => ⟨0, by omega⟩
  | some z =>
    ⟨(z % 256).toNat, by
      have h1 : 0 ≤ z % 256 := Int.emod_nonneg z (by norm_num)
      have h2 : z % 256 < 256 := Int.emod_lt_of_pos z (by norm_num)
      omega⟩

namespace Worker

/-- The Worker's `hexToBytes`: a `Uint8Array` of length `hex.length / 2`
(fractional lengths truncate), each entry `parseInt` of a 2-character
slice coerced through `ToUint8`.  Total: it never throws. -/
def hexToBytes (hex : String) : List Byte :=
  if hex.isEmpty then []
  else (List.range (hex.length / 2)).map (fun i =>
    toUint8 (jsParseIntHex ⟨(hex.data.drop (2 * i)).take 2⟩))

section Crypto

-- `deriveBits` stands for WebCrypto PBKDF2: arguments are password,
-- salt bytes, iteration count, digest name, and number of bits.
variable (deriveBits : String → List Byte → Nat → String → Nat → List Byte)

/-- The Worker's `pbkdf2Hash`: derive `keylen * 8` bits over the decoded
salt and return the hex encoding. -/
def pbkdf2Hash (password saltHex : String) (iterations keylen : Nat) (digest : String) : String :=
  bytesToHex (deriveBits password (hexToBytes saltHex) iterations digest (keylen * 8))

/-- A stored per-post credential record (the `pw_*` columns). -/
structure PwRecord where
  pw_salt_hex : String
  pw_iterations : Nat
  pw_digest : String
  pw_keylen : Nat
  pw_hash_hex : String
deriving DecidableEq, Repr

/-- The Worker's `makePasswordRecord`; `salt` stands for the 16 random
bytes drawn by `crypto.getRandomValues(new Uint8Array(16))`. -/
def makePasswordRecord (password : String) (salt : List Byte) : PwRecord :=
  let saltHex := bytesToHex salt
  let iterations := 100000
  let keylen := 32
  let digest := "SHA-256"
  { pw_salt_hex := saltHex
    pw_iterations := iterations
    pw_digest := "sha256"
    pw_keylen := keylen
    pw_hash_hex := pbkdf2Hash deriveBits password saltHex iterations keylen digest }

/-- The Worker's `verifyPassword`: re-derive with the record's stored
parameters (normalizing the digest label) and compare with
`safeEqualHex`.  Total: it never throws. -/
def verifyPassword (password : String) (record : PwRecord) : Bool :=
  let digest := if record.pw_digest = "sha256" then "SHA-256" else record.pw_digest
  let hashHex := pbkdf2Hash deriveBits password record.pw_salt_hex
    record.pw_iterations record.pw_keylen digest
  safeEqualHex hashHex record.pw_hash_hex

end Crypto

section Tokens

-- `sha256Hex` stands for the Worker's fast hash of `secret:salt:pepper`.
variable (sha256Hex : String → String)

/-- Result of the Worker's `makeToken`. -/
structure TokenData where
  token : String
  salt : String
  hash : String
deriving DecidableEq, Repr

/-- The Worker's `makeToken`; `token` stands for `crypto.randomUUID()` and
`saltBytes` for the 16 random salt bytes. -/
def makeToken (pepper : String) (token : String) (saltBytes : List Byte) : TokenData :=
  let salt := bytesToHex saltBytes
  { token := token, salt := salt, hash := sha256Hex (token ++ ":" ++ salt ++ ":" ++ pepper) }

/-- A row of the `admin_sessions` table. -/
structure AdminSessionRow where
  token_hash : String
  token_salt : String
  expires_at : Nat
deriving DecidableEq, Repr

/-- A row of the `view_tokens` table. -/
structure ViewTokenRow where
  post_id : String
  token_hash : String
  token_salt : String
  expires_at : Nat
deriving DecidableEq, Repr

/-- The Worker's `adminSessionFromCookie`: split the `woldecks.admin`
cookie, recompute the peppered hash, and query `admin_sessions` filtered
by `token_hash`, `token_salt` and `expires_at > now` (strict), `limit 1`. -/
def adminSessionFromCookie (pepper : String) (sessionsTbl : List AdminSessionRow)
    (now : Nat) (cookieRaw : Option String) : Option AdminSessionRow :=
  match splitToken cookieRaw with
  | none => none
  | some tp =>
    let tokenHash := sha256Hex (tp.token ++ ":" ++ tp.salt ++ ":" ++ pepper)
    (sessionsTbl.filter (fun r =>
      r.token_hash == tokenHash && r.token_salt == tp.salt && decide (now < r.expires_at))).head?

/-- The Worker's `isAdmin`. -/
def isAdmin (pepper : String) (sessionsTbl : List AdminSessionRow)
    (now : Nat) (cookieRaw : Option String) : Bool :=
  (adminSessionFromCookie sha256Hex pepper sessionsTbl now cookieRaw).isSome

/-- The `view_tokens` query made by the PUT and DELETE handlers: filter by
`post_id`, `token_hash`, `token_salt` and `expires_at > now` (strict). -/
def viewTokenRows (pepper : String) (viewTbl : List ViewTokenRow) (postId : String)
    (now : Nat) (tp : TokenParts) : List ViewTokenRow :=
  let tokenHash := sha256Hex (tp.token ++ ":" ++ tp.salt ++ ":" ++ pepper)
  viewTbl.filter (fun r =>
    r.post_id == postId && r.token_hash == tokenHash && r.token_salt == tp.salt &&
      decide (now < r.expires_at))

end Tokens

end Worker

/-- JSON values, used to state exactly which fields a response body holds. -/
inductive JVal where
  | null : JVal
  | bool : Bool → JVal
  | str : String → JVal
  | num : Nat → JVal
  | arr : List JVal → JVal
  | obj : List (String × JVal) → JVal

-- All object keys occurring anywhere in a JSON value.
mutual

def jsonKeys : JVal → List String
  | .null => []
  | .bool _ => []
  | .str _ => []
  | .num _ => []
  | .arr vs => jsonKeysArr vs
  | .obj kvs => jsonKeysObj kvs

def jsonKeysArr : List JVal → List String
  | [] => []
  | v :: vs => jsonKeys v ++ jsonKeysArr vs

def jsonKeysObj : List (String × JVal) → List String
  | [] => []
  | (k, v) :: kvs => k :: (jsonKeys v ++ jsonKeysObj kvs)

end

/-- A JSON `null` for a nullable column, a string otherwise. -/
def optStr (o : Option String) : JVal :=
  match o with
  | none => .null
  | some s => .str s

/-- An HTTP response: status code and JSON body. -/
structure Resp where
  status : Nat
  body : JVal

/-- A JSON error response, as built by the `json(status, { error: msg })`
helpers of both variants. -/
def jerr (status : Nat) (msg : String) : Resp :=
  ⟨status, .obj [("error", .str msg)]⟩

/-- The `200 { ok: true }` success response of the mutation handlers. -/
def okTrue : Resp :=
  ⟨200, .obj [("ok", .bool true)]⟩

/-- Fields of a PUT/DELETE request body after JSON parsing; `none` models
a field that is absent or not a string (the handlers then use `""`). -/
structure MutBody where
  title : Option String
  content : Option String
  password : Option String
  viewToken : Option String
deriving DecidableEq, Repr

/-- `typeof body.x === "string" ? body.x : ""`. -/
def strField (o : Option String) : String := o.getD ""

/-- JS `String.prototype.trim`: strip leading and trailing whitespace
(structurally recursive, unlike core `String.trim`). -/
def jsTrim (s : String) : String :=
  ⟨((s.data.dropWhile (fun c => c.isWhitespace)).reverse.dropWhile
      (fun c => c.isWhitespace)).reverse⟩

/-- Effect counters recorded by the handler models: how many view-token
store lookups ran, how many password verifications ran, and how many new
view tokens were minted and persisted. -/
structure Trace where
  tokenLookups : Nat
  pwChecks : Nat
  minted : Nat
deriving DecidableEq, Repr

namespace Worker

/-- A row of the Supabase `posts` table. -/
structure DbPost where
  id : String
  title : String
  author : String
  content : String
  pw_salt_hex : String
  pw_iterations : Nat
  pw_digest : String
  pw_keylen : Nat
  pw_hash_hex : String
  created_at : String
  updated_at : Option String
deriving DecidableEq, Repr

/-- The credential columns of a post row, as passed to `verifyPassword`. -/
def DbPost.pwRecord (p : DbPost) : PwRecord :=
  ⟨p.pw_salt_hex, p.pw_iterations, p.pw_digest, p.pw_keylen, p.pw_hash_hex⟩

/-- The Worker's backing store: the three Supabase tables. -/
structure WState where
  posts : List DbPost
  viewTokens : List ViewTokenRow
  adminSessions : List AdminSessionRow
deriving DecidableEq, Repr

/-- The response mapping of `GET /api/posts`. -/
def postsListBody (posts : List DbPost) : JVal :=
  .obj [("posts", .arr (posts.map (fun p => .obj
    [("id", .str p.id), ("title", .str p.title), ("author", .str p.author),
     ("createdAt", .str p.created_at), ("updatedAt", optStr p.updated_at)])))]

/-- The response mapping shared by `GET /api/posts/{id}` and the admin
short-circuit of the view endpoint. -/
def postDetailBody (p : DbPost) : JVal :=
  .obj [("post", .obj
    [("id", .str p.id), ("title", .str p.title), ("author", .str p.author),
     ("content", .str p.content), ("createdAt", .str p.created_at),
     ("updatedAt", optStr p.updated_at)])]

/-- The success response mapping of `POST /api/posts/{id}/view`:
the post fields plus the freshly minted `viewToken`. -/
def viewSuccessBody (p : DbPost) (tokenData : TokenData) : JVal :=
  .obj [("post", .obj
    [("id", .str p.id), ("title", .str p.title), ("author", .str p.author),
     ("content", .str p.content), ("createdAt", .str p.created_at),
     ("updatedAt", optStr p.updated_at)]),
    ("viewToken", .str (tokenData.token ++ "." ++ tokenData.salt))]

/-- The `PATCH posts?id=eq.{id}` update; the `posts_updated_at` trigger
sets `updated_at`. -/
def applyUpdate (st : WState) (id title content nowIso : String) : WState :=
  { st with posts := st.posts.map (fun p =>
      if p.id == id then { p with title := title, content := content, updated_at := some nowIso }
      else p) }

/-- The `DELETE posts?id=eq.{id}` deletion; `view_tokens.post_id`
references `posts` with `on delete cascade` (schema.sql). -/
def applyDelete (st : WState) (id : String) : WState :=
  { st with posts := st.posts.filter (fun p => !(p.id == id)),
            viewTokens := st.viewTokens.filter (fun r => !(r.post_id == id)) }

/-- Outcome of the non-admin authorization block shared verbatim by the
PUT and DELETE handlers. -/
inductive AuthOutcome where
  | allow : Trace → AuthOutcome
  | deny : Resp → Trace → AuthOutcome

section Handlers

variable (sha256Hex : String → String)
variable (deriveBits : String → List Byte → Nat → String → Nat → List Byte)

/-- The token branch of the non-admin authorization block: parse the
presented view token and, when it parses, look it up in `view_tokens`
(`authorized = rows.length > 0`). -/
def tokenAuthorized (pepper : String) (viewTbl : List ViewTokenRow) (id : String)
    (now : Nat) (viewToken : String) : Bool :=
  match splitToken (some viewToken) with
  | some tp => decide (0 < (viewTokenRows sha256Hex pepper viewTbl id now tp).length)
  | none => false

/-- How many `view_tokens` store lookups the token branch performs: one
when the presented token parses, none otherwise. -/
def tokenLookupCount (viewToken : String) : Nat :=
  match splitToken (some viewToken) with
  | some _ => 1
  | none => 0

/-- The `if (!isAdminUser) { ... }` authorization block of the PUT and
DELETE handlers: try the presented view token against `view_tokens`,
then fall back to the post password. -/
def mutAuthNonAdmin (pepper : String) (st : WState) (id : String)
    (viewToken password : String) (now : Nat) : AuthOutcome :=
  if tokenAuthorized sha256Hex pepper st.viewTokens id now viewToken then
    .allow ⟨tokenLookupCount viewToken, 0, 0⟩
  else if password = "" then
    .deny (jerr 401 "Password required") ⟨tokenLookupCount viewToken, 0, 0⟩
  else
    match (st.posts.filter (fun p => p.id == id)).head? with
    | none => .deny (jerr 404 "Not found") ⟨tokenLookupCount viewToken, 0, 0⟩
    | some post =>
      if verifyPassword deriveBits password post.pwRecord then
        .allow ⟨tokenLookupCount viewToken, 1, 0⟩
      else .deny (jerr 401 "Invalid password") ⟨tokenLookupCount viewToken, 1, 0⟩

/-- The Worker's `PUT /api/posts/{id}` handler. -/
def workerPut (pepper : String) (now : Nat) (nowIso : String) (st : WState)
    (cookieRaw : Option String) (id : String) (body : Option MutBody) :
    Resp × WState × Trace :=
  match body with
  | none => (jerr 400 "Invalid JSON", st, ⟨0, 0, 0⟩)
  | some b =>
    let title := jsTrim (strField b.title)
    let content := jsTrim (strField b.content)
    let password := strField b.password
    let viewToken := strField b.viewToken
    if title = "" ∨ content = "" then (jerr 400 "Missing fields", st, ⟨0, 0, 0⟩)
    else if isAdmin sha256Hex pepper st.adminSessions now cookieRaw then
      (okTrue, applyUpdate st id title content nowIso, ⟨0, 0, 0⟩)
    else
      match mutAuthNonAdmin sha256Hex deriveBits pepper st id viewToken password now with
      | .allow tr => (okTrue, applyUpdate st id title content nowIso, tr)
      | .deny resp tr => (resp, st, tr)

/-- The Worker's `DELETE /api/posts/{id}` handler. -/
def workerDelete (pepper : String) (now : Nat) (st : WState)
    (cookieRaw : Option String) (id : String) (body : Option MutBody) :
    Resp × WState × Trace :=
  match body with
  | none => (jerr 400 "Invalid JSON", st, ⟨0, 0, 0⟩)
  | some b =>
    let password := strField b.password
    let viewToken := strField b.viewToken
    if isAdmin sha256Hex pepper st.adminSessions now cookieRaw then
      (okTrue, applyDelete st id, ⟨0, 0, 0⟩)
    else
      match mutAuthNonAdmin sha256Hex deriveBits pepper st id viewToken password now with
      | .allow tr => (okTrue, applyDelete st id, tr)
      | .deny resp tr => (resp, st, tr)

end Handlers

end Worker

/-- Node `crypto.timingSafeEqual` on byte buffers: throws (modelled as
`Except.error`) when the lengths differ, otherwise a constant-time
equality comparison. -/
def timingSafeEqualBytes (a b : List Byte) : Except Unit Bool :=
  if a.length ≠ b.length then .error () else .ok (a == b)

/-- Node `crypto.timingSafeEqual` on the utf8 buffers of two strings. -/
def timingSafeEqualStr (a b : String) : Except Unit Bool :=
  if a.length ≠ b.length then .error () else .ok (a == b)

namespace LocalSrv

/-- A stored per-post credential record of the local server. -/
structure LPwRecord where
  saltHex : String
  iterations : Nat
  digest : String
  keylen : Nat
  hashHex : String
deriving DecidableEq, Repr

section Crypto

-- `pbkdf2Sync` stands for Node `crypto.pbkdf2Sync`: password, salt bytes,
-- iteration count, key length in bytes, digest name.
variable (pbkdf2Sync : String → List Byte → Nat → Nat → String → List Byte)

/-- Result of the local server's `pbkdf2Hash`. -/
structure LDerived where
  iterations : Nat
  digest : String
  keylen : Nat
  hashHex : String
deriving DecidableEq, Repr

/-- The local server's `pbkdf2Hash`: fixed parameters, salt decoded with
`Buffer.from(saltHex, "hex")`. -/
def pbkdf2Hash (password saltHex : String) : LDerived :=
  let salt := hexDecodeTrunc saltHex.data
  let iterations := 120000
  let keylen := 32
  let digest := "sha256"
  let hash := pbkdf2Sync password salt iterations keylen digest
  ⟨iterations, digest, keylen, bytesToHex hash⟩

/-- The local server's `makePasswordRecord`; `saltBytes` stands for
`crypto.randomBytes(16)`. -/
def makePasswordRecord (password : String) (saltBytes : List Byte) : LPwRecord :=
  let saltHex := bytesToHex saltBytes
  let derived := pbkdf2Hash pbkdf2Sync password saltHex
  ⟨saltHex, derived.iterations, derived.digest, derived.keylen, derived.hashHex⟩

/-- The local server's `verifyPassword`: re-derive with the record's
stored parameters and compare with `timingSafeEqual`; the `try/catch`
turns a length-mismatch throw into `false`. -/
def verifyPassword (password : String) (record : LPwRecord) : Bool :=
  let derived := pbkdf2Sync password (hexDecodeTrunc record.saltHex.data)
    record.iterations record.keylen record.digest
  match timingSafeEqualBytes (hexDecodeTrunc record.hashHex.data)
      (hexDecodeTrunc (bytesToHex derived).data) with
  | .error _ => false
  | .ok v => v

end Crypto

section Sessions

-- `hmacHex` stands for `crypto.createHmac("sha256", SESSION_SECRET)` over
-- a value, hex digest.
variable (hmacHex : String → String)

/-- The local server's `sign`: `value + "." + hmac(value)`. -/
def sign (value : String) : String :=
  value ++ "." ++ hmacHex value

/-- The local server's `verifySigned`: split at the last separator and
compare the MAC with `timingSafeEqual` (a throw on length mismatch is
caught and yields `null`). -/
def verifySigned (signed : String) : Option String :=
  match lastDotIdx signed.data with
  | none => none
  | some idx =>
    let value : String := ⟨signed.data.take idx⟩
    let mac : String := ⟨signed.data.drop (idx + 1)⟩
    let expected := hmacHex value
    match timingSafeEqualStr mac expected with
    | .error _ => none
    | .ok true => some value
    | .ok false => none

/-- A view-token entry of a session (`{ token, createdAt }`). -/
structure LTokenRec where
  token : String
  createdAt : Nat
deriving DecidableEq, Repr

/-- An anonymous per-browser session of the local server. -/
structure LSession where
  createdAt : String
  verified : List String
  tokens : List (String × LTokenRec)
deriving DecidableEq, Repr

/-- `Set.prototype.add`. -/
def setAdd (s : List String) (x : String) : List String :=
  if s.contains x then s else s ++ [x]

/-- `Map.prototype.set` on the per-session token map. -/
def mapSet (m : List (String × LTokenRec)) (k : String) (v : LTokenRec) :
    List (String × LTokenRec) :=
  if (m.find? (fun kv => kv.1 == k)).isSome then
    m.map (fun kv => if kv.1 == k then (k, v) else kv)
  else m ++ [(k, v)]

/-- `Map.prototype.get` on the per-session token map. -/
def mapGet (m : List (String × LTokenRec)) (k : String) : Option LTokenRec :=
  (m.find? (fun kv => kv.1 == k)).map (fun kv => kv.2)

/-- The process-wide `sessions` map, keyed by session id. -/
abbrev Sessions := List (String × LSession)

/-- `sessions.get(sid)` (with `sessions.has(sid)` as `isSome`). -/
def sessionsGet (m : Sessions) (sid : String) : Option LSession :=
  (m.find? (fun kv => kv.1 == sid)).map (fun kv => kv.2)

/-- `sessions.set(sid, session)`. -/
def sessionsSet (m : Sessions) (sid : String) (v : LSession) : Sessions :=
  if (m.find? (fun kv => kv.1 == sid)).isSome then
    m.map (fun kv => if kv.1 == sid then (sid, v) else kv)
  else m ++ [(sid, v)]

/-- The local server's `getSessionId`: verify the signed `woldecks.sid`
cookie. -/
def getSessionId (sidCookie : Option String) : Option String :=
  sidCookie.bind (verifySigned hmacHex)

/-- The local server's `getAdminSession`: verify the signed
`woldecks.admin` cookie and require the session id to be live. -/
def getAdminSession (sessions : Sessions) (adminCookie : Option String) : Option String :=
  match adminCookie with
  | none => none
  | some signed =>
    match verifySigned hmacHex signed with
    | none => none
    | some sid => if (sessionsGet sessions sid).isSome then some sid else none

/-- The local server's `isAdmin`. -/
def isAdmin (sessions : Sessions) (adminCookie : Option String) : Bool :=
  (getAdminSession hmacHex sessions adminCookie).isSome

/-- The local server's `getOrCreateSession`; `newSid` stands for the
`crypto.randomUUID()` drawn when a fresh session is created.  Returns the
session id used, the session value, and the updated map. -/
def getOrCreateSession (sessions : Sessions) (sidCookie : Option String)
    (nowIso : String) (newSid : String) : String × LSession × Sessions :=
  match getSessionId hmacHex sidCookie with
  | some sid =>
    match sessionsGet sessions sid with
    | some session => (sid, session, sessions)
    | none =>
      let session : LSession := ⟨nowIso, [], []⟩
      (newSid, session, sessionsSet sessions newSid session)
  | none =>
    let session : LSession := ⟨nowIso, [], []⟩
    (newSid, session, sessionsSet sessions newSid session)

end Sessions

/-- A post as stored in the local server's JSON data file. -/
structure LPost where
  id : String
  title : String
  author : String
  content : String
  password : LPwRecord
  createdAt : String
  updatedAt : Option String
deriving DecidableEq, Repr

/-- The response mapping of the local `GET /api/posts` (sorting by
`createdAt` descending does not change the emitted fields). -/
def postsListBody (posts : List LPost) : JVal :=
  .obj [("posts", .arr (posts.map (fun p => .obj
    [("id", .str p.id), ("title", .str p.title), ("author", .str p.author),
     ("createdAt", .str p.createdAt), ("updatedAt", optStr p.updatedAt)])))]

/-- The response mapping of the local `GET /api/posts/{id}`. -/
def postDetailBody (p : LPost) : JVal :=
  .obj [("post", .obj
    [("id", .str p.id), ("title", .str p.title), ("author", .str p.author),
     ("content", .str p.content), ("createdAt", .str p.createdAt),
     ("updatedAt", optStr p.updatedAt)])]

/-- The success response mapping of the local view endpoint: post fields
plus the fresh `viewToken` (a bare UUID in this variant). -/
def viewSuccessBody (p : LPost) (viewToken : String) : JVal :=
  .obj [("post", .obj
    [("id", .str p.id), ("title", .str p.title), ("author", .str p.author),
     ("content", .str p.content), ("createdAt", .str p.createdAt),
     ("updatedAt", optStr p.updatedAt)]),
    ("viewToken", .str viewToken)]

/-- In-place update of `data.posts[idx]` followed by `writeData`. -/
def updateAt (posts : List LPost) (idx : Nat) (title content nowIso : String) : List LPost :=
  match posts[idx]? with
  | none => posts
  | some p => posts.set idx { p with title := title, content := content, updatedAt := some nowIso }

section Handlers

variable (pbkdf2Sync : String → List Byte → Nat → Nat → String → List Byte)
variable (hmacHex : String → String)

/-- The non-admin session lookup shared by the local PUT and DELETE
handlers: `sid && sessions.has(sid) ? sessions.get(sid) : null`. -/
def sessionOf (sessions : Sessions) (sidCookie : Option String) : Option LSession :=
  (getSessionId hmacHex sidCookie).bind (sessionsGet sessions)

/-- Whether the caller's session has already unlocked the target post. -/
def verifiedFor (sessions : Sessions) (sidCookie : Option String) (id : String) : Bool :=
  match sessionOf hmacHex sessions sidCookie with
  | some s => s.verified.contains id
  | none => false

/-- Whether the presented view token equals the session's stored token
for the target post. -/
def tokenOkFor (sessions : Sessions) (sidCookie : Option String)
    (id viewToken : String) : Bool :=
  match sessionOf hmacHex sessions sidCookie with
  | some s =>
    match mapGet s.tokens id with
    | some t => t.token == viewToken
    | none => false
  | none => false

/-- The local server's `PUT /api/posts/{id}` handler; `newSid` and
`newToken` stand for the UUIDs drawn on the minting path.  Returns the
response, the data file's posts, the session map, and the trace. -/
def localPut (now : Nat) (nowIso : String) (posts : List LPost) (sessions : Sessions)
    (adminCookie sidCookie : Option String) (id : String) (body : Option MutBody)
    (newSid newToken : String) : Resp × List LPost × Sessions × Trace :=
  match body with
  | none => (jerr 400 "Invalid JSON", posts, sessions, ⟨0, 0, 0⟩)
  | some b =>
    let title := jsTrim (strField b.title)
    let content := jsTrim (strField b.content)
    let password := strField b.password
    let viewToken := strField b.viewToken
    if title = "" ∨ content = "" then (jerr 400 "Missing fields", posts, sessions, ⟨0, 0, 0⟩)
    else
      match posts.findIdx? (fun p => p.id == id) with
      | none => (jerr 404 "Not found", posts, sessions, ⟨0, 0, 0⟩)
      | some idx =>
        if isAdmin hmacHex sessions adminCookie then
          (okTrue, updateAt posts idx title content nowIso, sessions, ⟨0, 0, 0⟩)
        else
          if verifiedFor hmacHex sessions sidCookie id ||
              tokenOkFor hmacHex sessions sidCookie id viewToken then
            (okTrue, updateAt posts idx title content nowIso, sessions, ⟨1, 0, 0⟩)
          else if password = "" then
            (jerr 401 "Password required", posts, sessions, ⟨1, 0, 0⟩)
          else
            match posts[idx]? with
            | none => (jerr 404 "Not found", posts, sessions, ⟨1, 0, 0⟩)
            | some post =>
              if ¬verifyPassword pbkdf2Sync password post.password then
                (jerr 401 "Invalid password", posts, sessions, ⟨1, 1, 0⟩)
              else
                let ensured := getOrCreateSession hmacHex sessions sidCookie nowIso newSid
                let updatedSession : LSession :=
                  { ensured.2.1 with verified := setAdd ensured.2.1.verified id,
                                     tokens := mapSet ensured.2.1.tokens id ⟨newToken, now⟩ }
                let sessions2 := sessionsSet ensured.2.2 ensured.1 updatedSession
                (okTrue, updateAt posts idx title content nowIso, sessions2, ⟨1, 1, 1⟩)

/-- The local server's `DELETE /api/posts/{id}` handler. -/
def localDelete (now : Nat) (nowIso : String) (posts : List LPost) (sessions : Sessions)
    (adminCookie sidCookie : Option String) (id : String) (body : Option MutBody)
    (newSid newToken : String) : Resp × List LPost × Sessions × Trace :=
  match body with
  | none => (jerr 400 "Invalid JSON", posts, sessions, ⟨0, 0, 0⟩)
  | some b =>
    let password := strField b.password
    let viewToken := strField b.viewToken
    match posts.findIdx? (fun p => p.id == id) with
    | none => (jerr 404 "Not found", posts, sessions, ⟨0, 0, 0⟩)
    | some idx =>
      if isAdmin hmacHex sessions adminCookie then
        (okTrue, posts.eraseIdx idx, sessions, ⟨0, 0, 0⟩)
      else
        if verifiedFor hmacHex sessions sidCookie id ||
            tokenOkFor hmacHex sessions sidCookie id viewToken then
          (okTrue, posts.eraseIdx idx, sessions, ⟨1, 0, 0⟩)
        else if password = "" then
          (jerr 401 "Password required", posts, sessions, ⟨1, 0, 0⟩)
        else
          match posts[idx]? with
          | none => (jerr 404 "Not found", posts, sessions, ⟨1, 0, 0⟩)
          | some post =>
            if ¬verifyPassword pbkdf2Sync password post.password then
              (jerr 401 "Invalid password", posts, sessions, ⟨1, 1, 0⟩)
            else
              let ensured := getOrCreateSession hmacHex sessions sidCookie nowIso newSid
              let updatedSession : LSession :=
                { ensured.2.1 with verified := setAdd ensured.2.1.verified id,
                                   tokens := mapSet ensured.2.1.tokens id ⟨newToken, now⟩ }
              let sessions2 := sessionsSet ensured.2.2 ensured.1 updatedSession
              (okTrue, posts.eraseIdx idx, sessions2, ⟨1, 1, 1⟩)

end Handlers

end LocalSrv

/-- The complete set of keys that may appear in a successful public post
response body (wrapper keys included). -/
def allowedKeys : List String :=
  ["posts", "post", "viewToken", "id", "title", "author", "content", "createdAt", "updatedAt"]

/-- Keys of stored credential data that must never be serialized. -/
def credentialKeys : List String :=
  ["pw_salt_hex", "pw_iterations", "pw_digest", "pw_keylen", "pw_hash_hex",
   "password", "saltHex", "iterations", "digest", "keylen", "hashHex"]

/-- A concrete stand-in hash used only to instantiate witness theorems. -/
def cHash : String → String := fun s => s

/-- A concrete stand-in PBKDF2 (Worker signature) used only to
instantiate witness theorems: the derived byte depends on the password. -/
def cDeriveBits : String → List Byte → Nat → String → Nat → List Byte :=
  fun p _ _ _ _ => if p = "a" then [0] else [1]

/-- A concrete stand-in PBKDF2 (Node signature) used only to instantiate
witness theorems. -/
def cPbkdf2Sync : String → List Byte → Nat → Nat → String → List Byte :=
  fun p _ _ _ _ => if p = "a" then [0] else [1]


theorem hexDigitVal_hexDigitChar : ∀ n : Fin 16, hexDigitVal (hexDigitChar n.val) = some n := by
  decide

theorem hexDecodeTrunc_byteToHexPair (b : Byte) (rest : List Char) :
    hexDecodeTrunc (byteToHexPair b ++ rest) = b :: hexDecodeTrunc rest := by
  have h1 := hexDigitVal_hexDigitChar ⟨b.val / 16, by omega⟩
  have h2 := hexDigitVal_hexDigitChar ⟨b.val % 16, by omega⟩
  simp only [byteToHexPair, List.cons_append, List.nil_append, hexDecodeTrunc, h1, h2]
  congr 1
  exact Fin.ext (Nat.div_add_mod b.val 16)

theorem hexDecodeTrunc_bytesToHex (l : List Byte) :
    hexDecodeTrunc (bytesToHex l).data = l := by
  induction l with
  | nil => rfl
  | cons b rest ih =>
    show hexDecodeTrunc ((List.map byteToHexPair (b :: rest)).flatten) = b :: rest
    rw [List.map_cons, List.flatten_cons]
    rw [hexDecodeTrunc_byteToHexPair]
    exact congrArg (b :: ·) ih

theorem bytesToHex_length (l : List Byte) : (bytesToHex l).length = 2 * l.length := by
  induction l with
  | nil => rfl
  | cons b rest ih =>
    show ((List.map byteToHexPair (b :: rest)).flatten).length = 2 * (rest.length + 1)
    rw [List.map_cons, List.flatten_cons, List.length_append]
    have : ((List.map byteToHexPair rest).flatten).length = 2 * rest.length := ih
    simp only [byteToHexPair, List.length_cons, List.length_nil] at *
    omega

theorem bytesToHex_injective {l1 l2 : List Byte} (h : bytesToHex l1 = bytesToHex l2) :
    l1 = l2 := by
  have := congrArg (fun s => hexDecodeTrunc s.data) h
  simpa [hexDecodeTrunc_bytesToHex] using this

theorem nat_or_eq_zero_iff (a b : Nat) : a ||| b = 0 ↔ a = 0 ∧ b = 0 := by
  constructor
  · intro h
    have key : ∀ i, a.testBit i = false ∧ b.testBit i = false := by
      intro i
      have := congrArg (fun n => n.testBit i) h
      simpa only [Nat.testBit_or, Nat.zero_testBit, Bool.or_eq_false_iff] using this
    constructor
    · exact Nat.eq_of_testBit_eq (fun i => by simp [(key i).1])
    · exact Nat.eq_of_testBit_eq (fun i => by simp [(key i).2])
  · rintro ⟨rfl, rfl⟩
    rfl

theorem char_toNat_inj {a b : Char} (h : a.toNat = b.toNat) : a = b := by
  apply Char.eq_of_val_eq
  apply UInt32.toNat.inj
  exact h

theorem foldl_orXor_eq_zero (l : List (Char × Char)) (d : Nat) :
    (l.foldl (fun diff p => diff ||| (p.1.toNat ^^^ p.2.toNat)) d = 0) ↔
      (d = 0 ∧ ∀ p ∈ l, p.1 = p.2) := by
  induction l generalizing d with
  | nil => simp
  | cons p rest ih =>
    simp only [List.foldl_cons, ih, List.mem_cons]
    constructor
    · rintro ⟨hd, hrest⟩
      rw [nat_or_eq_zero_iff] at hd
      refine ⟨hd.1, ?_⟩
      rintro q (rfl | hq)
      · exact char_toNat_inj (Nat.xor_eq_zero.mp hd.2)
      · exact hrest q hq
    · rintro ⟨rfl, hall⟩
      refine ⟨?_, fun q hq => hall q (Or.inr hq)⟩
      rw [nat_or_eq_zero_iff]
      exact ⟨rfl, Nat.xor_eq_zero.mpr (congrArg Char.toNat (hall p (Or.inl rfl)))⟩

theorem list_eq_of_zip_pointwise {l1 l2 : List Char} (hlen : l1.length = l2.length)
    (h : ∀ p ∈ l1.zip l2, p.1 = p.2) : l1 = l2 := by
  induction l1 generalizing l2 with
  | nil => cases l2 with
    | nil => rfl
    | cons _ _ => simp at hlen
  | cons a rest ih =>
    cases l2 with
    | nil => simp at hlen
    | cons b rest2 =>
      simp only [List.zip_cons_cons, List.mem_cons] at h
      have hab : a = b := h (a, b) (Or.inl rfl)
      have htail : rest = rest2 := by
        apply ih (by simpa using hlen)
        intro p hp
        exact h p (Or.inr hp)
      rw [hab, htail]

theorem string_ext {a b : String} (h : a.data = b.data) : a = b := by
  cases a; cases b; exact congrArg String.mk h

theorem mem_zip_self {α : Type} (l : List α) : ∀ p ∈ l.zip l, p.1 = p.2 := by
  induction l with
  | nil => intro p hp; simp at hp
  | cons a rest ih =>
    intro p hp
    rcases List.mem_cons.mp (by simpa [List.zip_cons_cons] using hp) with h | h
    · rw [h]
    · exact ih p h

theorem safeEqualHex_eq_true_iff (a b : String) : safeEqualHex a b = true ↔ a = b := by
  unfold safeEqualHex
  constructor
  · intro h
    by_cases hlen : a.length = b.length
    · rw [if_neg (not_not_intro hlen), beq_iff_eq, foldl_orXor_eq_zero] at h
      exact string_ext (list_eq_of_zip_pointwise hlen h.2)
    · rw [if_pos hlen] at h
      exact absurd h (by simp)
  · rintro rfl
    simp only [ne_eq, not_true_eq_false, if_false, beq_iff_eq]
    rw [foldl_orXor_eq_zero]
    exact ⟨rfl, mem_zip_self a.data⟩

theorem lastDotIdx_append_of_some {ys : List Char} {j : Nat} (xs : List Char)
    (h : lastDotIdx ys = some j) : lastDotIdx (xs ++ ys) = some (xs.length + j) := by
  induction xs with
  | nil => rw [List.nil_append, List.length_nil, Nat.zero_add]; exact h
  | cons c rest ih =>
    show lastDotIdx (c :: (rest ++ ys)) = some (rest.length + 1 + j)
    unfold lastDotIdx
    rw [ih]
    simp only [List.length_cons]
    congr 1
    omega

theorem lastDotIdx_eq_none_of_not_mem {ys : List Char} (h : '.' ∉ ys) :
    lastDotIdx ys = none := by
  induction ys with
  | nil => rfl
  | cons c rest ih =>
    have hc : c ≠ '.' := fun hcc => h (by simp [hcc])
    have hrest : '.' ∉ rest := fun hm => h (by simp [hm])
    unfold lastDotIdx
    rw [ih hrest]
    simp [hc]

theorem lastDotIdx_lt_length {ys : List Char} {j : Nat} (h : lastDotIdx ys = some j) :
    j < ys.length := by
  induction ys generalizing j with
  | nil => simp [lastDotIdx] at h
  | cons c rest ih =>
    unfold lastDotIdx at h
    cases hr : lastDotIdx rest with
    | some i =>
      rw [hr] at h
      have := ih hr
      simp only [Option.some.injEq] at h
      simp only [List.length_cons]
      omega
    | none =>
      rw [hr] at h
      by_cases hc : c = '.'
      · simp [hc] at h
        simp [← h]
      · simp [hc] at h

theorem drop_append_length {α : Type} (xs ys : List α) (k : Nat) :
    (xs ++ ys).drop (xs.length + k) = ys.drop k := by
  induction xs with
  | nil => simp
  | cons a rest ih => simp [Nat.succ_add, ih]

theorem data_append3 (a b c : String) : (a ++ b ++ c).data = a.data ++ b.data ++ c.data := by
  simp [String.data_append]

theorem splitToken_roundtrip (token salt : String) (hs : '.' ∉ salt.data) :
    splitToken (some (token ++ "." ++ salt)) = some ⟨token, salt⟩ := by
  have hdot : ".".data = ['.'] := rfl
  have hdata : (token ++ "." ++ salt).data = token.data ++ ('.' :: salt.data) := by
    rw [data_append3, hdot]
    simp
  have hinner : lastDotIdx ('.' :: salt.data) = some 0 := by
    unfold lastDotIdx
    rw [lastDotIdx_eq_none_of_not_mem hs]
    simp
  have hlast2 : lastDotIdx (token.data ++ '.' :: salt.data) = some token.data.length := by
    simpa using lastDotIdx_append_of_some token.data hinner
  have hne : (token ++ "." ++ salt).isEmpty = false := by
    rcases hemp : (token ++ "." ++ salt).isEmpty with _ | _
    · rfl
    · exfalso
      have hempty : (token ++ "." ++ salt) = "" := by
        simpa [String.isEmpty_iff] using hemp
      have hlen : (token ++ "." ++ salt).data.length = ("" : String).data.length :=
        congrArg (fun s => s.data.length) hempty
      rw [hdata] at hlen
      simp at hlen
  simp only [splitToken, hne, Bool.false_eq_true, if_false, hdata, hlast2]
  have hdrop : (token.data ++ '.' :: salt.data).drop (token.data.length + 1) = salt.data := by
    simpa using drop_append_length token.data ('.' :: salt.data) 1
  rw [List.take_left, hdrop,
    show (⟨token.data⟩ : String) = token from string_ext rfl,
    show (⟨salt.data⟩ : String) = salt from string_ext rfl]

theorem splitToken_salt_with_dot (token salt2 : String) {j : Nat}
    (hj : lastDotIdx salt2.data = some j) :
    ∃ tp : TokenParts, splitToken (some (token ++ "." ++ salt2)) = some tp ∧
      tp.salt.length + j + 1 = salt2.length := by
  have hdot : ".".data = ['.'] := rfl
  have hdata : (token ++ "." ++ salt2).data = token.data ++ ('.' :: salt2.data) := by
    rw [data_append3, hdot]
    simp
  have hinner : lastDotIdx ('.' :: salt2.data) = some (j + 1) := by
    unfold lastDotIdx
    rw [hj]
  have hlast2 : lastDotIdx (token.data ++ '.' :: salt2.data) = some (token.data.length + (j + 1)) :=
    lastDotIdx_append_of_some token.data hinner
  have hne : (token ++ "." ++ salt2).isEmpty = false := by
    rcases hemp : (token ++ "." ++ salt2).isEmpty with _ | _
    · rfl
    · exfalso
      have hempty : (token ++ "." ++ salt2) = "" := by
        simpa [String.isEmpty_iff] using hemp
      have hlen : (token ++ "." ++ salt2).data.length = ("" : String).data.length :=
        congrArg (fun s => s.data.length) hempty
      rw [hdata] at hlen
      simp at hlen
  have hjlt : j < salt2.data.length := lastDotIdx_lt_length hj
  refine ⟨⟨⟨(token.data ++ '.' :: salt2.data).take (token.data.length + (j + 1))⟩,
    ⟨salt2.data.drop (j + 1)⟩⟩, ?_, ?_⟩
  · simp only [splitToken, hne, Bool.false_eq_true, if_false, hdata, hlast2]
    have hdrop : (token.data ++ '.' :: salt2.data).drop (token.data.length + (j + 1) + 1)
        = salt2.data.drop (j + 1) := by
      have h1 : token.data.length + (j + 1) + 1 = token.data.length + (j + 2) := by omega
      rw [h1, drop_append_length token.data ('.' :: salt2.data) (j + 2)]
      rfl
    rw [hdrop]
  · show (salt2.data.drop (j + 1)).length + j + 1 = salt2.data.length
    rw [List.length_drop]
    omega

theorem safeEqualHex_self (a : String) : safeEqualHex a a = true :=
  (safeEqualHex_eq_true_iff a a).mpr rfl

theorem safeEqualHex_eq_false_of_ne {a b : String} (h : a ≠ b) : safeEqualHex a b = false := by
  cases hv : safeEqualHex a b
  · rfl
  · exact absurd ((safeEqualHex_eq_true_iff a b).mp hv) h

/-- C5: verifying a password against the record freshly produced from it
succeeds, and verifying a different password fails whenever the two
PBKDF2 derivations differ (the no-collision reading of "with
overwhelming probability"), in both the Worker and the local server. -/
theorem claim_C5 :
    (∀ (deriveBits : String → List Byte → Nat → String → Nat → List Byte)
       (p : String) (salt : List Byte),
       Worker.verifyPassword deriveBits p (Worker.makePasswordRecord deriveBits p salt) = true) ∧
    (∀ (deriveBits : String → List Byte → Nat → String → Nat → List Byte)
       (p1 p2 : String) (salt : List Byte),
       Worker.pbkdf2Hash deriveBits p2 (bytesToHex salt) 100000 32 "SHA-256" ≠
         Worker.pbkdf2Hash deriveBits p1 (bytesToHex salt) 100000 32 "SHA-256" →
       Worker.verifyPassword deriveBits p2 (Worker.makePasswordRecord deriveBits p1 salt) = false) ∧
    (∀ (pbkdf2Sync : String → List Byte → Nat → Nat → String → List Byte)
       (p : String) (salt : List Byte),
       LocalSrv.verifyPassword pbkdf2Sync p (LocalSrv.makePasswordRecord pbkdf2Sync p salt) = true) ∧
    (∀ (pbkdf2Sync : String → List Byte → Nat → Nat → String → List Byte)
       (p1 p2 : String) (salt : List Byte),
       pbkdf2Sync p2 (hexDecodeTrunc (bytesToHex salt).data) 120000 32 "sha256" ≠
         pbkdf2Sync p1 (hexDecodeTrunc (bytesToHex salt).data) 120000 32 "sha256" →
       LocalSrv.verifyPassword pbkdf2Sync p2 (LocalSrv.makePasswordRecord pbkdf2Sync p1 salt) = false) := by
  refine ⟨?_, ?_, ?_, ?_⟩
  · intro dB p salt
    simp [Worker.verifyPassword, Worker.makePasswordRecord, safeEqualHex_self]
  · intro dB p1 p2 salt hneq
    simp only [Worker.verifyPassword, Worker.makePasswordRecord]
    exact safeEqualHex_eq_false_of_ne (by simpa using hneq)
  · intro pb p salt
    simp [LocalSrv.verifyPassword, LocalSrv.makePasswordRecord, LocalSrv.pbkdf2Hash,
      hexDecodeTrunc_bytesToHex, timingSafeEqualBytes]
  · intro pb p1 p2 salt hneq
    rw [hexDecodeTrunc_bytesToHex] at hneq
    simp only [LocalSrv.verifyPassword, LocalSrv.makePasswordRecord, LocalSrv.pbkdf2Hash,
      hexDecodeTrunc_bytesToHex]
    by_cases hlen : (pb p1 salt 120000 32 "sha256").length =
        (pb p2 salt 120000 32 "sha256").length
    · simp only [timingSafeEqualBytes, hlen, ne_eq, not_true_eq_false, if_false]
      simp only [beq_eq_false_iff_ne, ne_eq]
      intro hcontra
      exact hneq hcontra.symm
    · simp [timingSafeEqualBytes, hlen]

theorem claim_C5_witness :
    (Worker.pbkdf2Hash cDeriveBits "b" (bytesToHex [0]) 100000 32 "SHA-256" ≠
      Worker.pbkdf2Hash cDeriveBits "a" (bytesToHex [0]) 100000 32 "SHA-256") ∧
    Worker.verifyPassword cDeriveBits "a" (Worker.makePasswordRecord cDeriveBits "a" [0]) = true ∧
    Worker.verifyPassword cDeriveBits "b" (Worker.makePasswordRecord cDeriveBits "a" [0]) = false ∧
    (cPbkdf2Sync "b" (hexDecodeTrunc (bytesToHex [0]).data) 120000 32 "sha256" ≠
      cPbkdf2Sync "a" (hexDecodeTrunc (bytesToHex [0]).data) 120000 32 "sha256") ∧
    LocalSrv.verifyPassword cPbkdf2Sync "a" (LocalSrv.makePasswordRecord cPbkdf2Sync "a" [0]) = true ∧
    LocalSrv.verifyPassword cPbkdf2Sync "b" (LocalSrv.makePasswordRecord cPbkdf2Sync "a" [0]) = false :=
  ⟨by decide, claim_C5.1 cDeriveBits "a" [0],
   claim_C5.2.1 cDeriveBits "a" "b" [0] (by decide), by decide,
   claim_C5.2.2.1 cPbkdf2Sync "a" [0],
   claim_C5.2.2.2 cPbkdf2Sync "a" "b" [0] (by decide)⟩

/-- C9: `makePasswordRecord` produces a 16-byte (32 hex character) salt,
an iteration count of at least 100,000, a 256-bit digest and key length,
and a derived hash equal to the PBKDF2 derivation of the password under
exactly the stored parameters (the Worker normalizes the stored digest
label "sha256" to WebCrypto's "SHA-256"), in both implementations. -/
theorem claim_C9 :
    (∀ (deriveBits : String → List Byte → Nat → String → Nat → List Byte)
       (p : String) (salt : List Byte), salt.length = 16 →
       (Worker.makePasswordRecord deriveBits p salt).pw_salt_hex.length = 32 ∧
       (Worker.makePasswordRecord deriveBits p salt).pw_iterations = 100000 ∧
       100000 ≤ (Worker.makePasswordRecord deriveBits p salt).pw_iterations ∧
       (Worker.makePasswordRecord deriveBits p salt).pw_keylen = 32 ∧
       (Worker.makePasswordRecord deriveBits p salt).pw_digest = "sha256" ∧
       (Worker.makePasswordRecord deriveBits p salt).pw_hash_hex =
         Worker.pbkdf2Hash deriveBits p
           (Worker.makePasswordRecord deriveBits p salt).pw_salt_hex
           (Worker.makePasswordRecord deriveBits p salt).pw_iterations
           (Worker.makePasswordRecord deriveBits p salt).pw_keylen
           (if (Worker.makePasswordRecord deriveBits p salt).pw_digest = "sha256" then "SHA-256"
            else (Worker.makePasswordRecord deriveBits p salt).pw_digest)) ∧
    (∀ (pbkdf2Sync : String → List Byte → Nat → Nat → String → List Byte)
       (p : String) (salt : List Byte), salt.length = 16 →
       (LocalSrv.makePasswordRecord pbkdf2Sync p salt).saltHex.length = 32 ∧
       (LocalSrv.makePasswordRecord pbkdf2Sync p salt).iterations = 120000 ∧
       100000 ≤ (LocalSrv.makePasswordRecord pbkdf2Sync p salt).iterations ∧
       (LocalSrv.makePasswordRecord pbkdf2Sync p salt).keylen = 32 ∧
       (LocalSrv.makePasswordRecord pbkdf2Sync p salt).digest = "sha256" ∧
       (LocalSrv.makePasswordRecord pbkdf2Sync p salt).hashHex =
         bytesToHex (pbkdf2Sync p
           (hexDecodeTrunc (LocalSrv.makePasswordRecord pbkdf2Sync p salt).saltHex.data)
           (LocalSrv.makePasswordRecord pbkdf2Sync p salt).iterations
           (LocalSrv.makePasswordRecord pbkdf2Sync p salt).keylen
           (LocalSrv.makePasswordRecord pbkdf2Sync p salt).digest)) := by
  constructor
  · intro dB p salt hlen
    refine ⟨?_, rfl, show (100000 : Nat) ≤ 100000 from Nat.le_refl _, rfl, rfl,
      by simp [Worker.makePasswordRecord]⟩
    show (bytesToHex salt).length = 32
    rw [bytesToHex_length, hlen]
  · intro pb p salt hlen
    refine ⟨?_, rfl, show (100000 : Nat) ≤ 120000 by norm_num, rfl, rfl,
      by simp [LocalSrv.makePasswordRecord, LocalSrv.pbkdf2Hash]⟩
    show (bytesToHex salt).length = 32
    rw [bytesToHex_length, hlen]

theorem claim_C9_witness :
    (List.replicate 16 (0 : Byte)).length = 16 ∧
    (Worker.makePasswordRecord cDeriveBits "p" (List.replicate 16 0)).pw_salt_hex.length = 32 ∧
    (LocalSrv.makePasswordRecord cPbkdf2Sync "p" (List.replicate 16 0)).saltHex.length = 32 :=
  ⟨by simp,
   (claim_C9.1 cDeriveBits "p" (List.replicate 16 0) (by simp)).1,
   (claim_C9.2 cPbkdf2Sync "p" (List.replicate 16 0) (by simp)).1⟩

/-- C7: password verification on a record with malformed stored
parameters fails closed.  The Worker's `hexToBytes` is total on non-hex
and odd-length salts (last two conjuncts evaluate it on such inputs), and
each variant's `verifyPassword` returns `false` — never an escaping
exception — whenever the re-derivation does not match the stored hash. -/
theorem claim_C7 :
    (∀ (deriveBits : String → List Byte → Nat → String → Nat → List Byte)
       (password : String) (record : Worker.PwRecord),
       Worker.pbkdf2Hash deriveBits password record.pw_salt_hex record.pw_iterations
         record.pw_keylen
         (if record.pw_digest = "sha256" then "SHA-256" else record.pw_digest) ≠
         record.pw_hash_hex →
       Worker.verifyPassword deriveBits password record = false) ∧
    (∀ (pbkdf2Sync : String → List Byte → Nat → Nat → String → List Byte)
       (password : String) (record : LocalSrv.LPwRecord),
       hexDecodeTrunc record.hashHex.data ≠
         pbkdf2Sync password (hexDecodeTrunc record.saltHex.data) record.iterations
           record.keylen record.digest →
       LocalSrv.verifyPassword pbkdf2Sync password record = false) ∧
    Worker.hexToBytes "zz" = [0] ∧
    Worker.hexToBytes "abc" = [171] := by
  refine ⟨?_, ?_, by decide, by decide⟩
  · intro dB password record hneq
    simp only [Worker.verifyPassword]
    exact safeEqualHex_eq_false_of_ne hneq
  · intro pb password record hneq
    simp only [LocalSrv.verifyPassword, hexDecodeTrunc_bytesToHex]
    by_cases hlen : (hexDecodeTrunc record.hashHex.data).length =
        (pb password (hexDecodeTrunc record.saltHex.data) record.iterations
          record.keylen record.digest).length
    · simp only [timingSafeEqualBytes, hlen, ne_eq, not_true_eq_false, if_false]
      simpa [beq_eq_false_iff_ne] using hneq
    · simp [timingSafeEqualBytes, hlen]

theorem claim_C7_witness :
    (Worker.pbkdf2Hash cDeriveBits "p" "zz" 1000 32
      (if ("sha256" : String) = "sha256" then "SHA-256" else "sha256") ≠ "deadbeef") ∧
    Worker.verifyPassword cDeriveBits "p" ⟨"zz", 1000, "sha256", 32, "deadbeef"⟩ = false ∧
    (hexDecodeTrunc ("xy" : String).data ≠
      cPbkdf2Sync "p" (hexDecodeTrunc ("zz" : String).data) 1000 32 "sha256") ∧
    LocalSrv.verifyPassword cPbkdf2Sync "p" ⟨"zz", 1000, "sha256", 32, "xy"⟩ = false :=
  ⟨by decide,
   claim_C7.1 cDeriveBits "p" ⟨"zz", 1000, "sha256", 32, "deadbeef"⟩ (by decide),
   by decide,
   claim_C7.2.1 cPbkdf2Sync "p" ⟨"zz", 1000, "sha256", 32, "xy"⟩ (by decide)⟩

/-- C8 counterexample: the claim says a string whose secret part or salt
part is empty yields null, but `splitToken` returns the split pair with
an empty part instead. -/
theorem claim_C8_cex :
    splitToken (some "x.") = some ⟨"x", ""⟩ ∧ splitToken (some "x.") ≠ none ∧
    splitToken (some ".x") = some ⟨"", "x"⟩ ∧ splitToken (some ".x") ≠ none := by
  refine ⟨by decide, ?_, by decide, ?_⟩ <;> decide

/-- C8 (amended): `splitToken` returns null, without throwing, on a
missing string, an empty string, or a string with no separator; when a
separator occurs it splits at the last separator and returns the parts,
even when the secret or salt part is empty. -/
theorem claim_C8 :
    splitToken none = none ∧
    splitToken (some "") = none ∧
    (∀ s : String, '.' ∉ s.data → splitToken (some s) = none) ∧
    (∀ t s : String, '.' ∉ s.data → splitToken (some (t ++ "." ++ s)) = some ⟨t, s⟩) := by
  refine ⟨rfl, by decide, ?_, fun t s h => splitToken_roundtrip t s h⟩
  intro s h
  simp [splitToken, lastDotIdx_eq_none_of_not_mem h, ite_self]

theorem claim_C8_witness :
    splitToken (some "abc") = none ∧
    splitToken (some ("tk" ++ "." ++ "salt123")) = some ⟨"tk", "salt123"⟩ :=
  ⟨claim_C8.2.2.1 "abc" (by decide), claim_C8.2.2.2 "tk" "salt123" (by decide)⟩

theorem hexDigitChar_ne_dot : ∀ n : Fin 16, hexDigitChar n.val ≠ '.' := by
  decide

theorem bytesToHex_no_dot (l : List Byte) : '.' ∉ (bytesToHex l).data := by
  induction l with
  | nil => simp [bytesToHex]
  | cons b rest ih =>
    show '.' ∉ ((List.map byteToHexPair (b :: rest)).flatten)
    rw [List.map_cons, List.flatten_cons]
    intro hmem
    rcases List.mem_append.mp hmem with h | h
    · simp only [byteToHexPair, List.mem_cons, List.not_mem_nil, or_false] at h
      rcases h with h1 | h1
      · exact hexDigitChar_ne_dot ⟨b.val / 16, by omega⟩ h1.symm
      · exact hexDigitChar_ne_dot ⟨b.val % 16, by omega⟩ h1.symm
    · exact ih h

theorem filter_head_isSome {α : Type} {l : List α} {p : α → Bool} {r : α}
    (hmem : r ∈ l) (hp : p r = true) : ((l.filter p).head?).isSome = true := by
  have hin : r ∈ l.filter p := List.mem_filter.mpr ⟨hmem, hp⟩
  cases hfil : l.filter p with
  | nil => rw [hfil] at hin; simp at hin
  | cons a rest => rfl

theorem filter_pos_length {α : Type} {l : List α} {p : α → Bool} {r : α}
    (hmem : r ∈ l) (hp : p r = true) : 0 < (l.filter p).length := by
  have hin : r ∈ l.filter p := List.mem_filter.mpr ⟨hmem, hp⟩
  exact List.length_pos.mpr (List.ne_nil_of_mem hin)

theorem filter_nil_of_all_false {α : Type} {l : List α} {p : α → Bool}
    (h : ∀ r ∈ l, p r = false) : l.filter p = [] := by
  induction l with
  | nil => rfl
  | cons a rest ih =>
    rw [List.filter_cons, h a (by simp)]
    simp only [Bool.false_eq_true, if_false]
    exact ih (fun r hr => h r (by simp [hr]))

theorem not_mem_of_lastDotIdx_none {ys : List Char} (h : lastDotIdx ys = none) :
    '.' ∉ ys := by
  induction ys with
  | nil => simp
  | cons c rest ih =>
    unfold lastDotIdx at h
    intro hmem
    cases hr : lastDotIdx rest with
    | some i => rw [hr] at h; exact Option.noConfusion h
    | none =>
      rw [hr] at h
      rcases List.mem_cons.mp hmem with hc | hc
      · rw [← hc] at h; simp at h
      · exact ih hr hc

theorem adminAccept (H : String → String) (pepper token : String) (saltBytes : List Byte)
    (t now : Nat) (store : List Worker.AdminSessionRow)
    (hmem : (⟨H (token ++ ":" ++ bytesToHex saltBytes ++ ":" ++ pepper),
      bytesToHex saltBytes, t⟩ : Worker.AdminSessionRow) ∈ store)
    (hnow : now < t) :
    Worker.isAdmin H pepper store now (some (token ++ "." ++ bytesToHex saltBytes)) = true := by
  have hsplit := splitToken_roundtrip token (bytesToHex saltBytes) (bytesToHex_no_dot saltBytes)
  simp only [Worker.isAdmin, Worker.adminSessionFromCookie, hsplit]
  exact filter_head_isSome hmem (by simp [hnow])

theorem adminRejectAllExpired (H : String → String) (pepper : String)
    (store : List Worker.AdminSessionRow) (now : Nat) (cookieRaw : Option String)
    (hall : ∀ r ∈ store, r.expires_at ≤ now) :
    Worker.isAdmin H pepper store now cookieRaw = false := by
  cases hsp : splitToken cookieRaw with
  | none => simp [Worker.isAdmin, Worker.adminSessionFromCookie, hsp]
  | some tp =>
    simp only [Worker.isAdmin, Worker.adminSessionFromCookie, hsp]
    rw [filter_nil_of_all_false (fun r hr => by simp [Nat.not_lt.mpr (hall r hr)])]
    rfl

/-- C4: expiry is enforced at read time with a strict `expires_at > now`
filter: an admin-session or view-token row with expiry `t` is accepted by
every check at `now < t` and treated as absent (and the check rejects) at
every `now ≥ t`, even though the row is still in the backing table. -/
theorem claim_C4 :
    (∀ (H : String → String) (pepper token : String) (saltBytes : List Byte) (t now : Nat)
       (store : List Worker.AdminSessionRow),
       (⟨H (token ++ ":" ++ bytesToHex saltBytes ++ ":" ++ pepper), bytesToHex saltBytes, t⟩ :
         Worker.AdminSessionRow) ∈ store → now < t →
       Worker.isAdmin H pepper store now (some (token ++ "." ++ bytesToHex saltBytes)) = true) ∧
    (∀ (H : String → String) (pepper : String) (store : List Worker.AdminSessionRow)
       (now : Nat) (cookieRaw : Option String),
       (∀ r ∈ store, r.expires_at ≤ now) →
       Worker.isAdmin H pepper store now cookieRaw = false) ∧
    (∀ (H : String → String) (pepper token postId : String) (saltBytes : List Byte)
       (t now : Nat) (viewTbl : List Worker.ViewTokenRow),
       (⟨postId, H (token ++ ":" ++ bytesToHex saltBytes ++ ":" ++ pepper),
         bytesToHex saltBytes, t⟩ : Worker.ViewTokenRow) ∈ viewTbl → now < t →
       0 < (Worker.viewTokenRows H pepper viewTbl postId now ⟨token, bytesToHex saltBytes⟩).length) ∧
    (∀ (H : String → String) (pepper postId : String) (viewTbl : List Worker.ViewTokenRow)
       (now : Nat) (tp : TokenParts) (r : Worker.ViewTokenRow),
       r ∈ viewTbl → r.expires_at ≤ now →
       r ∉ Worker.viewTokenRows H pepper viewTbl postId now tp) ∧
    (∀ (H : String → String) (pepper postId : String) (viewTbl : List Worker.ViewTokenRow)
       (now : Nat) (tp : TokenParts),
       (∀ r ∈ viewTbl, r.expires_at ≤ now) →
       Worker.viewTokenRows H pepper viewTbl postId now tp = []) := by
  refine ⟨?_, ?_, ?_, ?_, ?_⟩
  · intro H pepper token saltBytes t now store hmem hnow
    exact adminAccept H pepper token saltBytes t now store hmem hnow
  · intro H pepper store now cookieRaw hall
    exact adminRejectAllExpired H pepper store now cookieRaw hall
  · intro H pepper token postId saltBytes t now viewTbl hmem hnow
    simp only [Worker.viewTokenRows]
    exact filter_pos_length hmem (by simp [hnow])
  · intro H pepper postId viewTbl now tp r hr hexp hmemF
    simp only [Worker.viewTokenRows] at hmemF
    have hp := (List.mem_filter.mp hmemF).2
    simp only [Bool.and_eq_true, decide_eq_true_eq] at hp
    omega
  · intro H pepper postId viewTbl now tp hall
    simp only [Worker.viewTokenRows]
    exact filter_nil_of_all_false (fun r hr => by simp [Nat.not_lt.mpr (hall r hr)])

theorem claim_C4_witness :
    (5 : Nat) < 10 ∧ (10 : Nat) ≤ 10 ∧
    Worker.isAdmin cHash "p"
      [⟨cHash ("tk" ++ ":" ++ bytesToHex [0] ++ ":" ++ "p"), bytesToHex [0], 10⟩] 5
      (some ("tk" ++ "." ++ bytesToHex [0])) = true ∧
    Worker.isAdmin cHash "p"
      [⟨cHash ("tk" ++ ":" ++ bytesToHex [0] ++ ":" ++ "p"), bytesToHex [0], 10⟩] 10
      (some ("tk" ++ "." ++ bytesToHex [0])) = false ∧
    0 < (Worker.viewTokenRows cHash "p"
      [⟨"post1", cHash ("tk" ++ ":" ++ bytesToHex [0] ++ ":" ++ "p"), bytesToHex [0], 10⟩]
      "post1" 5 ⟨"tk", bytesToHex [0]⟩).length ∧
    Worker.viewTokenRows cHash "p"
      [⟨"post1", cHash ("tk" ++ ":" ++ bytesToHex [0] ++ ":" ++ "p"), bytesToHex [0], 10⟩]
      "post1" 10 ⟨"tk", bytesToHex [0]⟩ = [] :=
  ⟨by norm_num, by norm_num,
   claim_C4.1 cHash "p" "tk" [0] 10 5
     [⟨cHash ("tk" ++ ":" ++ bytesToHex [0] ++ ":" ++ "p"), bytesToHex [0], 10⟩]
     (by simp) (by norm_num),
   claim_C4.2.1 cHash "p"
     [⟨cHash ("tk" ++ ":" ++ bytesToHex [0] ++ ":" ++ "p"), bytesToHex [0], 10⟩] 10
     (some ("tk" ++ "." ++ bytesToHex [0])) (by simp),
   claim_C4.2.2.1 cHash "p" "tk" "post1" [0] 10 5
     [⟨"post1", cHash ("tk" ++ ":" ++ bytesToHex [0] ++ ":" ++ "p"), bytesToHex [0], 10⟩]
     (by simp) (by norm_num),
   claim_C4.2.2.2.2 cHash "p" "post1"
     [⟨"post1", cHash ("tk" ++ ":" ++ bytesToHex [0] ++ ":" ++ "p"), bytesToHex [0], 10⟩] 10
     ⟨"tk", bytesToHex [0]⟩ (by simp)⟩

/-- C6: a token issued by `makeToken` re-verifies through the
`adminSessionFromCookie` check (recomputed peppered hash matches, parsed
salt matches); altering the secret fails whenever the altered hash input
collides with nothing (the no-collision reading of SHA-256), and
altering the salt to any same-length different string fails outright,
whether or not the alteration introduces a separator character. -/
theorem claim_C6 :
    (∀ (H : String → String) (pepper token : String) (saltBytes : List Byte) (t now : Nat),
       now < t →
       Worker.isAdmin H pepper
         [⟨(Worker.makeToken H pepper token saltBytes).hash,
           (Worker.makeToken H pepper token saltBytes).salt, t⟩] now
         (some ((Worker.makeToken H pepper token saltBytes).token ++ "." ++
           (Worker.makeToken H pepper token saltBytes).salt)) = true) ∧
    (∀ (H : String → String) (pepper token token2 : String) (saltBytes : List Byte) (t now : Nat),
       H (token2 ++ ":" ++ bytesToHex saltBytes ++ ":" ++ pepper) ≠
         (Worker.makeToken H pepper token saltBytes).hash →
       Worker.isAdmin H pepper
         [⟨(Worker.makeToken H pepper token saltBytes).hash, bytesToHex saltBytes, t⟩] now
         (some (token2 ++ "." ++ bytesToHex saltBytes)) = false) ∧
    (∀ (H : String → String) (pepper token : String) (saltBytes : List Byte) (t now : Nat)
       (salt2 : String),
       salt2 ≠ bytesToHex saltBytes →
       salt2.length = (bytesToHex saltBytes).length →
       Worker.isAdmin H pepper
         [⟨(Worker.makeToken H pepper token saltBytes).hash, bytesToHex saltBytes, t⟩] now
         (some (token ++ "." ++ salt2)) = false) := by
  refine ⟨?_, ?_, ?_⟩
  · intro H pepper token saltBytes t now hnow
    simp only [Worker.makeToken]
    exact adminAccept H pepper token saltBytes t now _ (by simp) hnow
  · intro H pepper token token2 saltBytes t now hneq
    simp only [Worker.makeToken] at hneq ⊢
    have hsplit := splitToken_roundtrip token2 (bytesToHex saltBytes) (bytesToHex_no_dot saltBytes)
    simp only [Worker.isAdmin, Worker.adminSessionFromCookie, hsplit]
    rw [filter_nil_of_all_false (fun r hr => ?_)]
    · rfl
    · have hr2 : r = ⟨H (token ++ ":" ++ bytesToHex saltBytes ++ ":" ++ pepper),
          bytesToHex saltBytes, t⟩ := by simpa using hr
      subst hr2
      simp only [Bool.and_eq_false_iff, beq_eq_false_iff_ne]
      exact Or.inl (Or.inl (fun he => hneq he.symm))
  · intro H pepper token saltBytes t now salt2 hsne hslen
    cases hld : lastDotIdx salt2.data with
    | none =>
      have hnd : '.' ∉ salt2.data := not_mem_of_lastDotIdx_none hld
      have hsplit := splitToken_roundtrip token salt2 hnd
      simp only [Worker.isAdmin, Worker.adminSessionFromCookie, hsplit]
      rw [filter_nil_of_all_false (fun r hr => ?_)]
      · rfl
      · have hr2 : r = ⟨(Worker.makeToken H pepper token saltBytes).hash,
            bytesToHex saltBytes, t⟩ := by simpa using hr
        subst hr2
        simp only [Bool.and_eq_false_iff, beq_eq_false_iff_ne]
        exact Or.inl (Or.inr (fun he => hsne he.symm))
    | some j =>
      rcases splitToken_salt_with_dot token salt2 hld with ⟨tp, hsp, hplen⟩
      simp only [Worker.isAdmin, Worker.adminSessionFromCookie, hsp]
      rw [filter_nil_of_all_false (fun r hr => ?_)]
      · rfl
      · have hr2 : r = ⟨(Worker.makeToken H pepper token saltBytes).hash,
            bytesToHex saltBytes, t⟩ := by simpa using hr
        subst hr2
        simp only [Bool.and_eq_false_iff, beq_eq_false_iff_ne]
        refine Or.inl (Or.inr (fun he => ?_))
        have hlen2 : (bytesToHex saltBytes).length = tp.salt.length := congrArg String.length he
        omega

theorem claim_C6_witness :
    (5 : Nat) < 10 ∧
    Worker.isAdmin cHash "p"
      [⟨(Worker.makeToken cHash "p" "tk" [0]).hash,
        (Worker.makeToken cHash "p" "tk" [0]).salt, 10⟩] 5
      (some ((Worker.makeToken cHash "p" "tk" [0]).token ++ "." ++
        (Worker.makeToken cHash "p" "tk" [0]).salt)) = true ∧
    (cHash ("t2" ++ ":" ++ bytesToHex [0] ++ ":" ++ "p") ≠
      (Worker.makeToken cHash "p" "tk" [0]).hash) ∧
    Worker.isAdmin cHash "p"
      [⟨(Worker.makeToken cHash "p" "tk" [0]).hash, bytesToHex [0], 10⟩] 5
      (some ("t2" ++ "." ++ bytesToHex [0])) = false ∧
    (".0" ≠ bytesToHex [0]) ∧ (".0" : String).length = (bytesToHex [0]).length ∧
    Worker.isAdmin cHash "p"
      [⟨(Worker.makeToken cHash "p" "tk" [0]).hash, bytesToHex [0], 10⟩] 5
      (some ("tk" ++ "." ++ ".0")) = false :=
  ⟨by norm_num,
   claim_C6.1 cHash "p" "tk" [0] 10 5 (by norm_num),
   by decide,
   claim_C6.2.1 cHash "p" "tk" "t2" [0] 10 5 (by decide),
   by decide, by decide,
   claim_C6.2.2 cHash "p" "tk" [0] 10 5 ".0" (by decide) (by decide)⟩

theorem jsonKeys_optStr (o : Option String) : jsonKeys (optStr o) = [] := by
  cases o <;> rfl

theorem worker_list_item_keys (posts : List Worker.DbPost) :
    ∀ k ∈ jsonKeysArr (posts.map (fun p => JVal.obj
      [("id", .str p.id), ("title", .str p.title), ("author", .str p.author),
       ("createdAt", .str p.created_at), ("updatedAt", optStr p.updated_at)])),
      k ∈ (["id", "title", "author", "createdAt", "updatedAt"] : List String) := by
  induction posts with
  | nil => intro k hk; simp [jsonKeysArr] at hk
  | cons p rest ih =>
    intro k hk
    rw [List.map_cons] at hk
    simp only [jsonKeysArr, jsonKeys, jsonKeysObj, jsonKeys_optStr, List.nil_append,
      List.append_nil, List.mem_append, List.mem_cons, List.not_mem_nil, or_false] at hk
    rcases hk with hk | hk
    · simp only [List.mem_cons, List.not_mem_nil, or_false]
      tauto
    · exact ih k hk

theorem local_list_item_keys (posts : List LocalSrv.LPost) :
    ∀ k ∈ jsonKeysArr (posts.map (fun p => JVal.obj
      [("id", .str p.id), ("title", .str p.title), ("author", .str p.author),
       ("createdAt", .str p.createdAt), ("updatedAt", optStr p.updatedAt)])),
      k ∈ (["id", "title", "author", "createdAt", "updatedAt"] : List String) := by
  induction posts with
  | nil => intro k hk; simp [jsonKeysArr] at hk
  | cons p rest ih =>
    intro k hk
    rw [List.map_cons] at hk
    simp only [jsonKeysArr, jsonKeys, jsonKeysObj, jsonKeys_optStr, List.nil_append,
      List.append_nil, List.mem_append, List.mem_cons, List.not_mem_nil, or_false] at hk
    rcases hk with hk | hk
    · simp only [List.mem_cons, List.not_mem_nil, or_false]
      tauto
    · exact ih k hk

/-- C10: every successful response body of the public post endpoints
(list, detail, view exchange) in both variants uses only the whitelisted
keys, and no stored credential field name ever appears among them. -/
theorem claim_C10 :
    (∀ posts : List Worker.DbPost, jsonKeys (Worker.postsListBody posts) ⊆ allowedKeys) ∧
    (∀ p : Worker.DbPost, jsonKeys (Worker.postDetailBody p) ⊆ allowedKeys) ∧
    (∀ (p : Worker.DbPost) (td : Worker.TokenData),
      jsonKeys (Worker.viewSuccessBody p td) ⊆ allowedKeys) ∧
    (∀ posts : List LocalSrv.LPost, jsonKeys (LocalSrv.postsListBody posts) ⊆ allowedKeys) ∧
    (∀ p : LocalSrv.LPost, jsonKeys (LocalSrv.postDetailBody p) ⊆ allowedKeys) ∧
    (∀ (p : LocalSrv.LPost) (vt : String),
      jsonKeys (LocalSrv.viewSuccessBody p vt) ⊆ allowedKeys) ∧
    credentialKeys.all (fun k => !(allowedKeys.contains k)) = true := by
  refine ⟨?_, ?_, ?_, ?_, ?_, ?_, by decide⟩
  · intro posts k hk
    simp only [Worker.postsListBody, jsonKeys, jsonKeysObj, jsonKeysArr, List.append_nil,
      List.mem_cons] at hk
    rcases hk with hk | hk
    · simp [hk, allowedKeys]
    · have := worker_list_item_keys posts k hk
      simp only [List.mem_cons, List.not_mem_nil, or_false] at this
      simp only [allowedKeys, List.mem_cons, List.not_mem_nil, or_false]
      tauto
  · intro p k hk
    simp only [Worker.postDetailBody, jsonKeys, jsonKeysObj, jsonKeys_optStr, List.nil_append,
      List.append_nil, List.mem_cons, List.not_mem_nil, or_false] at hk
    simp only [allowedKeys, List.mem_cons, List.not_mem_nil, or_false]
    tauto
  · intro p td k hk
    simp only [Worker.viewSuccessBody, jsonKeys, jsonKeysObj, jsonKeys_optStr, List.nil_append,
      List.append_nil, List.mem_append, List.mem_cons, List.not_mem_nil, or_false] at hk
    simp only [allowedKeys, List.mem_cons, List.not_mem_nil, or_false]
    tauto
  · intro posts k hk
    simp only [LocalSrv.postsListBody, jsonKeys, jsonKeysObj, jsonKeysArr, List.append_nil,
      List.mem_cons] at hk
    rcases hk with hk | hk
    · simp [hk, allowedKeys]
    · have := local_list_item_keys posts k hk
      simp only [List.mem_cons, List.not_mem_nil, or_false] at this
      simp only [allowedKeys, List.mem_cons, List.not_mem_nil, or_false]
      tauto
  · intro p k hk
    simp only [LocalSrv.postDetailBody, jsonKeys, jsonKeysObj, jsonKeys_optStr, List.nil_append,
      List.append_nil, List.mem_cons, List.not_mem_nil, or_false] at hk
    simp only [allowedKeys, List.mem_cons, List.not_mem_nil, or_false]
    tauto
  · intro p vt k hk
    simp only [LocalSrv.viewSuccessBody, jsonKeys, jsonKeysObj, jsonKeys_optStr, List.nil_append,
      List.append_nil, List.mem_append, List.mem_cons, List.not_mem_nil, or_false] at hk
    simp only [allowedKeys, List.mem_cons, List.not_mem_nil, or_false]
    tauto

theorem tokenLookupCount_of_authorized {H : String → String} {pepper : String}
    {viewTbl : List Worker.ViewTokenRow} {id : String} {now : Nat} {V : String}
    (ht : Worker.tokenAuthorized H pepper viewTbl id now V = true) :
    Worker.tokenLookupCount V = 1 := by
  unfold Worker.tokenAuthorized at ht
  unfold Worker.tokenLookupCount
  cases hsp : splitToken (some V) with
  | none => rw [hsp] at ht; exact absurd ht (by simp)
  | some tp => rfl

theorem mutAuth_allow_token (H : String → String)
    (dB : String → List Byte → Nat → String → Nat → List Byte)
    (pepper : String) (st : Worker.WState) (id V P : String) (now : Nat)
    (ht : Worker.tokenAuthorized H pepper st.viewTokens id now V = true) :
    Worker.mutAuthNonAdmin H dB pepper st id V P now = .allow ⟨1, 0, 0⟩ := by
  simp [Worker.mutAuthNonAdmin, ht, tokenLookupCount_of_authorized ht]

theorem mutAuth_allow_pw (H : String → String)
    (dB : String → List Byte → Nat → String → Nat → List Byte)
    (pepper : String) (st : Worker.WState) (id V P : String) (now : Nat)
    (post : Worker.DbPost)
    (ht : Worker.tokenAuthorized H pepper st.viewTokens id now V = false)
    (hp : P ≠ "")
    (hpost : (st.posts.filter (fun p => p.id == id)).head? = some post)
    (hv : Worker.verifyPassword dB P post.pwRecord = true) :
    Worker.mutAuthNonAdmin H dB pepper st id V P now =
      .allow ⟨Worker.tokenLookupCount V, 1, 0⟩ := by
  simp [Worker.mutAuthNonAdmin, ht, hp, hpost, hv]

theorem mutAuth_deny_exists (H : String → String)
    (dB : String → List Byte → Nat → String → Nat → List Byte)
    (pepper : String) (st : Worker.WState) (id V P : String) (now : Nat)
    (post : Worker.DbPost)
    (ht : Worker.tokenAuthorized H pepper st.viewTokens id now V = false)
    (hpost : (st.posts.filter (fun p => p.id == id)).head? = some post)
    (hfail : P = "" ∨ Worker.verifyPassword dB P post.pwRecord = false) :
    ∃ msg : String, Worker.mutAuthNonAdmin H dB pepper st id V P now =
      .deny (jerr 401 msg) ⟨Worker.tokenLookupCount V, if P = "" then 0 else 1, 0⟩ := by
  by_cases hpw : P = ""
  · exact ⟨"Password required", by simp [Worker.mutAuthNonAdmin, ht, hpw]⟩
  · rcases hfail with hfail | hfail
    · exact absurd hfail hpw
    · exact ⟨"Invalid password", by simp [Worker.mutAuthNonAdmin, ht, hpw, hpost, hfail]⟩

/-- C1: for PUT and DELETE on an existing post (with a well-formed body),
the authorization precedence is fixed in both variants: a valid admin
credential authorizes the mutation with no view-token lookup, no
password verification and no token minted; otherwise the view token is
checked (one store lookup); only if that fails is the password checked;
and if every path fails the request is rejected with a 401 and the posts
store is left unchanged. -/
theorem claim_C1 :
    (∀ (H : String → String) (dB : String → List Byte → Nat → String → Nat → List Byte)
       (pepper : String) (now : Nat) (nowIso : String) (st : Worker.WState)
       (cookie : Option String) (id : String) (b : MutBody),
       jsTrim (strField b.title) ≠ "" → jsTrim (strField b.content) ≠ "" →
       Worker.isAdmin H pepper st.adminSessions now cookie = true →
       Worker.workerPut H dB pepper now nowIso st cookie id (some b) =
         (okTrue, Worker.applyUpdate st id (jsTrim (strField b.title)) (jsTrim (strField b.content)) nowIso,
          ⟨0, 0, 0⟩)) ∧
    (∀ (H : String → String) (dB : String → List Byte → Nat → String → Nat → List Byte)
       (pepper : String) (now : Nat) (nowIso : String) (st : Worker.WState)
       (cookie : Option String) (id : String) (b : MutBody),
       jsTrim (strField b.title) ≠ "" → jsTrim (strField b.content) ≠ "" →
       Worker.isAdmin H pepper st.adminSessions now cookie = false →
       Worker.tokenAuthorized H pepper st.viewTokens id now (strField b.viewToken) = true →
       Worker.workerPut H dB pepper now nowIso st cookie id (some b) =
         (okTrue, Worker.applyUpdate st id (jsTrim (strField b.title)) (jsTrim (strField b.content)) nowIso,
          ⟨1, 0, 0⟩)) ∧
    (∀ (H : String → String) (dB : String → List Byte → Nat → String → Nat → List Byte)
       (pepper : String) (now : Nat) (nowIso : String) (st : Worker.WState)
       (cookie : Option String) (id : String) (b : MutBody) (post : Worker.DbPost),
       jsTrim (strField b.title) ≠ "" → jsTrim (strField b.content) ≠ "" →
       Worker.isAdmin H pepper st.adminSessions now cookie = false →
       Worker.tokenAuthorized H pepper st.viewTokens id now (strField b.viewToken) = false →
       strField b.password ≠ "" →
       (st.posts.filter (fun p => p.id == id)).head? = some post →
       Worker.verifyPassword dB (strField b.password) post.pwRecord = true →
       Worker.workerPut H dB pepper now nowIso st cookie id (some b) =
         (okTrue, Worker.applyUpdate st id (jsTrim (strField b.title)) (jsTrim (strField b.content)) nowIso,
          ⟨Worker.tokenLookupCount (strField b.viewToken), 1, 0⟩)) ∧
    (∀ (H : String → String) (dB : String → List Byte → Nat → String → Nat → List Byte)
       (pepper : String) (now : Nat) (nowIso : String) (st : Worker.WState)
       (cookie : Option String) (id : String) (b : MutBody) (post : Worker.DbPost),
       jsTrim (strField b.title) ≠ "" → jsTrim (strField b.content) ≠ "" →
       Worker.isAdmin H pepper st.adminSessions now cookie = false →
       Worker.tokenAuthorized H pepper st.viewTokens id now (strField b.viewToken) = false →
       (st.posts.filter (fun p => p.id == id)).head? = some post →
       (strField b.password = "" ∨
         Worker.verifyPassword dB (strField b.password) post.pwRecord = false) →
       (Worker.workerPut H dB pepper now nowIso st cookie id (some b)).1.status = 401 ∧
       (Worker.workerPut H dB pepper now nowIso st cookie id (some b)).2.1 = st) ∧
    (∀ (H : String → String) (dB : String → List Byte → Nat → String → Nat → List Byte)
       (pepper : String) (now : Nat) (st : Worker.WState)
       (cookie : Option String) (id : String) (b : MutBody),
       Worker.isAdmin H pepper st.adminSessions now cookie = true →
       Worker.workerDelete H dB pepper now st cookie id (some b) =
         (okTrue, Worker.applyDelete st id, ⟨0, 0, 0⟩)) ∧
    (∀ (H : String → String) (dB : String → List Byte → Nat → String → Nat → List Byte)
       (pepper : String) (now : Nat) (st : Worker.WState)
       (cookie : Option String) (id : String) (b : MutBody),
       Worker.isAdmin H pepper st.adminSessions now cookie = false →
       Worker.tokenAuthorized H pepper st.viewTokens id now (strField b.viewToken) = true →
       Worker.workerDelete H dB pepper now st cookie id (some b) =
         (okTrue, Worker.applyDelete st id, ⟨1, 0, 0⟩)) ∧
    (∀ (H : String → String) (dB : String → List Byte → Nat → String → Nat → List Byte)
       (pepper : String) (now : Nat) (st : Worker.WState)
       (cookie : Option String) (id : String) (b : MutBody) (post : Worker.DbPost),
       Worker.isAdmin H pepper st.adminSessions now cookie = false →
       Worker.tokenAuthorized H pepper st.viewTokens id now (strField b.viewToken) = false →
       strField b.password ≠ "" →
       (st.posts.filter (fun p => p.id == id)).head? = some post →
       Worker.verifyPassword dB (strField b.password) post.pwRecord = true →
       Worker.workerDelete H dB pepper now st cookie id (some b) =
         (okTrue, Worker.applyDelete st id,
          ⟨Worker.tokenLookupCount (strField b.viewToken), 1, 0⟩)) ∧
    (∀ (H : String → String) (dB : String → List Byte → Nat → String → Nat → List Byte)
       (pepper : String) (now : Nat) (st : Worker.WState)
       (cookie : Option String) (id : String) (b : MutBody) (post : Worker.DbPost),
       Worker.isAdmin H pepper st.adminSessions now cookie = false →
       Worker.tokenAuthorized H pepper st.viewTokens id now (strField b.viewToken) = false →
       (st.posts.filter (fun p => p.id == id)).head? = some post →
       (strField b.password = "" ∨
         Worker.verifyPassword dB (strField b.password) post.pwRecord = false) →
       (Worker.workerDelete H dB pepper now st cookie id (some b)).1.status = 401 ∧
       (Worker.workerDelete H dB pepper now st cookie id (some b)).2.1 = st) ∧
    (∀ (pbl : String → List Byte → Nat → Nat → String → List Byte) (hm : String → String)
       (now : Nat) (nowIso : String) (posts : List LocalSrv.LPost)
       (sessions : LocalSrv.Sessions) (adminCookie sidCookie : Option String)
       (id : String) (b : MutBody) (idx : Nat) (newSid newToken : String),
       jsTrim (strField b.title) ≠ "" → jsTrim (strField b.content) ≠ "" →
       posts.findIdx? (fun p => p.id == id) = some idx →
       LocalSrv.isAdmin hm sessions adminCookie = true →
       LocalSrv.localPut pbl hm now nowIso posts sessions adminCookie sidCookie id (some b)
           newSid newToken =
         (okTrue, LocalSrv.updateAt posts idx (jsTrim (strField b.title)) (jsTrim (strField b.content))
            nowIso, sessions, ⟨0, 0, 0⟩)) ∧
    (∀ (pbl : String → List Byte → Nat → Nat → String → List Byte) (hm : String → String)
       (now : Nat) (nowIso : String) (posts : List LocalSrv.LPost)
       (sessions : LocalSrv.Sessions) (adminCookie sidCookie : Option String)
       (id : String) (b : MutBody) (idx : Nat) (newSid newToken : String),
       jsTrim (strField b.title) ≠ "" → jsTrim (strField b.content) ≠ "" →
       posts.findIdx? (fun p => p.id == id) = some idx →
       LocalSrv.isAdmin hm sessions adminCookie = false →
       (LocalSrv.verifiedFor hm sessions sidCookie id ||
         LocalSrv.tokenOkFor hm sessions sidCookie id (strField b.viewToken)) = true →
       LocalSrv.localPut pbl hm now nowIso posts sessions adminCookie sidCookie id (some b)
           newSid newToken =
         (okTrue, LocalSrv.updateAt posts idx (jsTrim (strField b.title)) (jsTrim (strField b.content))
            nowIso, sessions, ⟨1, 0, 0⟩)) ∧
    (∀ (pbl : String → List Byte → Nat → Nat → String → List Byte) (hm : String → String)
       (now : Nat) (nowIso : String) (posts : List LocalSrv.LPost)
       (sessions : LocalSrv.Sessions) (adminCookie sidCookie : Option String)
       (id : String) (b : MutBody) (idx : Nat) (post : LocalSrv.LPost)
       (newSid newToken : String),
       jsTrim (strField b.title) ≠ "" → jsTrim (strField b.content) ≠ "" →
       posts.findIdx? (fun p => p.id == id) = some idx →
       LocalSrv.isAdmin hm sessions adminCookie = false →
       (LocalSrv.verifiedFor hm sessions sidCookie id ||
         LocalSrv.tokenOkFor hm sessions sidCookie id (strField b.viewToken)) = false →
       strField b.password ≠ "" →
       posts[idx]? = some post →
       LocalSrv.verifyPassword pbl (strField b.password) post.password = true →
       (LocalSrv.localPut pbl hm now nowIso posts sessions adminCookie sidCookie id (some b)
           newSid newToken).1 = okTrue ∧
       (LocalSrv.localPut pbl hm now nowIso posts sessions adminCookie sidCookie id (some b)
           newSid newToken).2.1 =
         LocalSrv.updateAt posts idx (jsTrim (strField b.title)) (jsTrim (strField b.content)) nowIso ∧
       (LocalSrv.localPut pbl hm now nowIso posts sessions adminCookie sidCookie id (some b)
           newSid newToken).2.2.2 = ⟨1, 1, 1⟩) ∧
    (∀ (pbl : String → List Byte → Nat → Nat → String → List Byte) (hm : String → String)
       (now : Nat) (nowIso : String) (posts : List LocalSrv.LPost)
       (sessions : LocalSrv.Sessions) (adminCookie sidCookie : Option String)
       (id : String) (b : MutBody) (idx : Nat) (post : LocalSrv.LPost)
       (newSid newToken : String),
       jsTrim (strField b.title) ≠ "" → jsTrim (strField b.content) ≠ "" →
       posts.findIdx? (fun p => p.id == id) = some idx →
       LocalSrv.isAdmin hm sessions adminCookie = false →
       (LocalSrv.verifiedFor hm sessions sidCookie id ||
         LocalSrv.tokenOkFor hm sessions sidCookie id (strField b.viewToken)) = false →
       posts[idx]? = some post →
       (strField b.password = "" ∨
         LocalSrv.verifyPassword pbl (strField b.password) post.password = false) →
       (LocalSrv.localPut pbl hm now nowIso posts sessions adminCookie sidCookie id (some b)
           newSid newToken).1.status = 401 ∧
       (LocalSrv.localPut pbl hm now nowIso posts sessions adminCookie sidCookie id (some b)
           newSid newToken).2.1 = posts) ∧
    (∀ (pbl : String → List Byte → Nat → Nat → String → List Byte) (hm : String → String)
       (now : Nat) (nowIso : String) (posts : List LocalSrv.LPost)
       (sessions : LocalSrv.Sessions) (adminCookie sidCookie : Option String)
       (id : String) (b : MutBody) (idx : Nat) (newSid newToken : String),
       posts.findIdx? (fun p => p.id == id) = some idx →
       LocalSrv.isAdmin hm sessions adminCookie = true →
       LocalSrv.localDelete pbl hm now nowIso posts sessions adminCookie sidCookie id (some b)
           newSid newToken =
         (okTrue, posts.eraseIdx idx, sessions, ⟨0, 0, 0⟩)) ∧
    (∀ (pbl : String → List Byte → Nat → Nat → String → List Byte) (hm : String → String)
       (now : Nat) (nowIso : String) (posts : List LocalSrv.LPost)
       (sessions : LocalSrv.Sessions) (adminCookie sidCookie : Option String)
       (id : String) (b : MutBody) (idx : Nat) (newSid newToken : String),
       posts.findIdx? (fun p => p.id == id) = some idx →
       LocalSrv.isAdmin hm sessions adminCookie = false →
       (LocalSrv.verifiedFor hm sessions sidCookie id ||
         LocalSrv.tokenOkFor hm sessions sidCookie id (strField b.viewToken)) = true →
       LocalSrv.localDelete pbl hm now nowIso posts sessions adminCookie sidCookie id (some b)
           newSid newToken =
         (okTrue, posts.eraseIdx idx, sessions, ⟨1, 0, 0⟩)) ∧
    (∀ (pbl : String → List Byte → Nat → Nat → String → List Byte) (hm : String → String)
       (now : Nat) (nowIso : String) (posts : List LocalSrv.LPost)
       (sessions : LocalSrv.Sessions) (adminCookie sidCookie : Option String)
       (id : String) (b : MutBody) (idx : Nat) (post : LocalSrv.LPost)
       (newSid newToken : String),
       posts.findIdx? (fun p => p.id == id) = some idx →
       LocalSrv.isAdmin hm sessions adminCookie = false →
       (LocalSrv.verifiedFor hm sessions sidCookie id ||
         LocalSrv.tokenOkFor hm sessions sidCookie id (strField b.viewToken)) = false →
       strField b.password ≠ "" →
       posts[idx]? = some post →
       LocalSrv.verifyPassword pbl (strField b.password) post.password = true →
       (LocalSrv.localDelete pbl hm now nowIso posts sessions adminCookie sidCookie id (some b)
           newSid newToken).1 = okTrue ∧
       (LocalSrv.localDelete pbl hm now nowIso posts sessions adminCookie sidCookie id (some b)
           newSid newToken).2.1 = posts.eraseIdx idx ∧
       (LocalSrv.localDelete pbl hm now nowIso posts sessions adminCookie sidCookie id (some b)
           newSid newToken).2.2.2 = ⟨1, 1, 1⟩) ∧
    (∀ (pbl : String → List Byte → Nat → Nat → String → List Byte) (hm : String → String)
       (now : Nat) (nowIso : String) (posts : List LocalSrv.LPost)
       (sessions : LocalSrv.Sessions) (adminCookie sidCookie : Option String)
       (id : String) (b : MutBody) (idx : Nat) (post : LocalSrv.LPost)
       (newSid newToken : String),
       posts.findIdx? (fun p => p.id == id) = some idx →
       LocalSrv.isAdmin hm sessions adminCookie = false →
       (LocalSrv.verifiedFor hm sessions sidCookie id ||
         LocalSrv.tokenOkFor hm sessions sidCookie id (strField b.viewToken)) = false →
       posts[idx]? = some post →
       (strField b.password = "" ∨
         LocalSrv.verifyPassword pbl (strField b.password) post.password = false) →
       (LocalSrv.localDelete pbl hm now nowIso posts sessions adminCookie sidCookie id (some b)
           newSid newToken).1.status = 401 ∧
       (LocalSrv.localDelete pbl hm now nowIso posts sessions adminCookie sidCookie id (some b)
           newSid newToken).2.1 = posts) := by
  refine ⟨?_, ?_, ?_, ?_, ?_, ?_, ?_, ?_, ?_, ?_, ?_, ?_, ?_, ?_, ?_, ?_⟩
  · intro H dB pepper now nowIso st cookie id b hT hC hadm
    simp [Worker.workerPut, hT, hC, hadm]
  · intro H dB pepper now nowIso st cookie id b hT hC hadm ht
    simp [Worker.workerPut, hT, hC, hadm,
      mutAuth_allow_token H dB pepper st id (strField b.viewToken) (strField b.password) now ht]
  · intro H dB pepper now nowIso st cookie id b post hT hC hadm ht hp hpost hv
    simp [Worker.workerPut, hT, hC, hadm,
      mutAuth_allow_pw H dB pepper st id (strField b.viewToken) (strField b.password) now post
        ht hp hpost hv]
  · intro H dB pepper now nowIso st cookie id b post hT hC hadm ht hpost hfail
    rcases mutAuth_deny_exists H dB pepper st id (strField b.viewToken) (strField b.password)
      now post ht hpost hfail with ⟨msg, hdeny⟩
    refine ⟨?_, ?_⟩ <;> simp [Worker.workerPut, hT, hC, hadm, hdeny, jerr]
  · intro H dB pepper now st cookie id b hadm
    simp [Worker.workerDelete, hadm]
  · intro H dB pepper now st cookie id b hadm ht
    simp [Worker.workerDelete, hadm,
      mutAuth_allow_token H dB pepper st id (strField b.viewToken) (strField b.password) now ht]
  · intro H dB pepper now st cookie id b post hadm ht hp hpost hv
    simp [Worker.workerDelete, hadm,
      mutAuth_allow_pw H dB pepper st id (strField b.viewToken) (strField b.password) now post
        ht hp hpost hv]
  · intro H dB pepper now st cookie id b post hadm ht hpost hfail
    rcases mutAuth_deny_exists H dB pepper st id (strField b.viewToken) (strField b.password)
      now post ht hpost hfail with ⟨msg, hdeny⟩
    refine ⟨?_, ?_⟩ <;> simp [Worker.workerDelete, hadm, hdeny, jerr]
  · intro pbl hm now nowIso posts sessions adminCookie sidCookie id b idx newSid newToken
      hT hC hfind hadm
    simp [LocalSrv.localPut, hT, hC, hfind, hadm]
  · intro pbl hm now nowIso posts sessions adminCookie sidCookie id b idx newSid newToken
      hT hC hfind hadm hvt
    simp [LocalSrv.localPut, hT, hC, hfind, hadm, hvt]
  · intro pbl hm now nowIso posts sessions adminCookie sidCookie id b idx post newSid newToken
      hT hC hfind hadm hvt hp hpost hv
    refine ⟨?_, ?_, ?_⟩ <;>
      simp [LocalSrv.localPut, hT, hC, hfind, hadm, hvt, hp, hpost, hv]
  · intro pbl hm now nowIso posts sessions adminCookie sidCookie id b idx post newSid newToken
      hT hC hfind hadm hvt hpost hfail
    by_cases hpw : strField b.password = ""
    · refine ⟨?_, ?_⟩ <;>
        simp [LocalSrv.localPut, hT, hC, hfind, hadm, hvt, hpw, jerr]
    · rcases hfail with hfail | hfail
      · exact absurd hfail hpw
      · refine ⟨?_, ?_⟩ <;>
          simp [LocalSrv.localPut, hT, hC, hfind, hadm, hvt, hpw, hpost, hfail, jerr]
  · intro pbl hm now nowIso posts sessions adminCookie sidCookie id b idx newSid newToken
      hfind hadm
    simp [LocalSrv.localDelete, hfind, hadm]
  · intro pbl hm now nowIso posts sessions adminCookie sidCookie id b idx newSid newToken
      hfind hadm hvt
    simp [LocalSrv.localDelete, hfind, hadm, hvt]
  · intro pbl hm now nowIso posts sessions adminCookie sidCookie id b idx post newSid newToken
      hfind hadm hvt hp hpost hv
    refine ⟨?_, ?_, ?_⟩ <;>
      simp [LocalSrv.localDelete, hfind, hadm, hvt, hp, hpost, hv]
  · intro pbl hm now nowIso posts sessions adminCookie sidCookie id b idx post newSid newToken
      hfind hadm hvt hpost hfail
    by_cases hpw : strField b.password = ""
    · refine ⟨?_, ?_⟩ <;>
        simp [LocalSrv.localDelete, hfind, hadm, hvt, hpw, jerr]
    · rcases hfail with hfail | hfail
      · exact absurd hfail hpw
      · refine ⟨?_, ?_⟩ <;>
          simp [LocalSrv.localDelete, hfind, hadm, hvt, hpw, hpost, hfail, jerr]

theorem claim_C1_witness :
    Worker.workerPut cHash cDeriveBits "p" 5 "T1"
        ⟨[], [], [⟨cHash ("tk" ++ ":" ++ bytesToHex [0] ++ ":" ++ "p"), bytesToHex [0], 10⟩]⟩
        (some ("tk" ++ "." ++ bytesToHex [0])) "p1"
        (some ⟨some "T", some "C", none, none⟩) =
      (okTrue,
       Worker.applyUpdate
         ⟨[], [], [⟨cHash ("tk" ++ ":" ++ bytesToHex [0] ++ ":" ++ "p"), bytesToHex [0], 10⟩]⟩
         "p1" (jsTrim (strField (some "T"))) (jsTrim (strField (some "C"))) "T1",
       ⟨0, 0, 0⟩) ∧
    (Worker.workerDelete cHash cDeriveBits "p" 5
        ⟨[⟨"p1", "t", "a", "c", "00", 1000, "sha256", 32, "00", "d0", none⟩], [], []⟩
        none "p1" (some ⟨none, none, some "b", none⟩)).1.status = 401 ∧
    (Worker.workerDelete cHash cDeriveBits "p" 5
        ⟨[⟨"p1", "t", "a", "c", "00", 1000, "sha256", 32, "00", "d0", none⟩], [], []⟩
        none "p1" (some ⟨none, none, some "b", none⟩)).2.1 =
      ⟨[⟨"p1", "t", "a", "c", "00", 1000, "sha256", 32, "00", "d0", none⟩], [], []⟩ :=
  ⟨claim_C1.1 cHash cDeriveBits "p" 5 "T1"
     ⟨[], [], [⟨cHash ("tk" ++ ":" ++ bytesToHex [0] ++ ":" ++ "p"), bytesToHex [0], 10⟩]⟩
     (some ("tk" ++ "." ++ bytesToHex [0])) "p1" ⟨some "T", some "C", none, none⟩
     (by decide) (by decide) (by decide),
   (claim_C1.2.2.2.2.2.2.2.1 cHash cDeriveBits "p" 5
     ⟨[⟨"p1", "t", "a", "c", "00", 1000, "sha256", 32, "00", "d0", none⟩], [], []⟩
     none "p1" ⟨none, none, some "b", none⟩
     ⟨"p1", "t", "a", "c", "00", 1000, "sha256", 32, "00", "d0", none⟩
     (by decide) (by decide) (by decide) (Or.inr (by decide))).1,
   (claim_C1.2.2.2.2.2.2.2.1 cHash cDeriveBits "p" 5
     ⟨[⟨"p1", "t", "a", "c", "00", 1000, "sha256", 32, "00", "d0", none⟩], [], []⟩
     none "p1" ⟨none, none, some "b", none⟩
     ⟨"p1", "t", "a", "c", "00", 1000, "sha256", 32, "00", "d0", none⟩
     (by decide) (by decide) (by decide) (Or.inr (by decide))).2⟩

theorem find_map_replace {β : Type} (m : List (String × β)) (k : String) (v : β)
    (h : (m.find? (fun kv => kv.1 == k)).isSome = true) :
    ((m.map (fun kv => if kv.1 == k then (k, v) else kv)).find? (fun kv => kv.1 == k)) =
      some (k, v) := by
  induction m with
  | nil => simp at h
  | cons kv rest ih =>
    rw [List.map_cons]
    by_cases hkv : (kv.1 == k) = true
    · rw [if_pos hkv]
      exact @List.find?_cons_of_pos _ (fun kv => kv.1 == k) (k, v) _ (by simp)
    · rw [if_neg hkv, @List.find?_cons_of_neg _ (fun kv => kv.1 == k) kv _ hkv]
      apply ih
      rw [@List.find?_cons_of_neg _ (fun kv => kv.1 == k) kv _ hkv] at h
      exact h

theorem find_append_new {β : Type} (m : List (String × β)) (k : String) (v : β)
    (h : m.find? (fun kv => kv.1 == k) = none) :
    ((m ++ [(k, v)]).find? (fun kv => kv.1 == k)) = some (k, v) := by
  induction m with
  | nil =>
    rw [List.nil_append]
    exact @List.find?_cons_of_pos _ (fun kv => kv.1 == k) (k, v) _ (by simp)
  | cons kv rest ih =>
    have hkv : ¬((kv.1 == k) = true) := by
      intro hc
      rw [@List.find?_cons_of_pos _ (fun kv => kv.1 == k) kv _ hc] at h
      exact Option.noConfusion h
    rw [List.cons_append, @List.find?_cons_of_neg _ (fun kv => kv.1 == k) kv _ hkv]
    apply ih
    rw [@List.find?_cons_of_neg _ (fun kv => kv.1 == k) kv _ hkv] at h
    exact h

theorem sessionsGet_set (m : LocalSrv.Sessions) (sid : String) (v : LocalSrv.LSession) :
    LocalSrv.sessionsGet (LocalSrv.sessionsSet m sid v) sid = some v := by
  unfold LocalSrv.sessionsSet LocalSrv.sessionsGet
  by_cases h : (m.find? (fun kv => kv.1 == sid)).isSome = true
  · rw [if_pos h, find_map_replace m sid v h]
    rfl
  · rw [if_neg h, find_append_new m sid v (by
      rcases hf : m.find? (fun kv => kv.1 == sid) with _ | val
      · exact hf
      · rw [hf] at h
        exact absurd rfl h)]
    rfl

theorem mapGet_set (m : List (String × LocalSrv.LTokenRec)) (k : String)
    (v : LocalSrv.LTokenRec) :
    LocalSrv.mapGet (LocalSrv.mapSet m k v) k = some v := by
  unfold LocalSrv.mapSet LocalSrv.mapGet
  by_cases h : (m.find? (fun kv => kv.1 == k)).isSome = true
  · rw [if_pos h, find_map_replace m k v h]
    rfl
  · rw [if_neg h, find_append_new m k v (by
      rcases hf : m.find? (fun kv => kv.1 == k) with _ | val
      · exact hf
      · rw [hf] at h
        exact absurd rfl h)]
    rfl

/-- C2 counterexample: a non-admin Worker PUT whose view token fails and
whose password verifies mints no token at all (the claim says a fresh
token is minted, persisted, and returned): the trace records zero minted
tokens and the success body is exactly `{ ok: true }` with no
`viewToken` field. -/
theorem claim_C2_cex :
    (Worker.workerPut cHash cDeriveBits "p" 5 "T1"
        ⟨[⟨"p1", "t", "a", "c", "00", 1000, "sha256", 32, "00", "d0", none⟩], [], []⟩
        none "p1" (some ⟨some "T", some "C", some "a", none⟩)).2.2.minted = 0 ∧
    (Worker.workerPut cHash cDeriveBits "p" 5 "T1"
        ⟨[⟨"p1", "t", "a", "c", "00", 1000, "sha256", 32, "00", "d0", none⟩], [], []⟩
        none "p1" (some ⟨some "T", some "C", some "a", none⟩)).1 = okTrue ∧
    "viewToken" ∉ jsonKeys (Worker.workerPut cHash cDeriveBits "p" 5 "T1"
        ⟨[⟨"p1", "t", "a", "c", "00", 1000, "sha256", 32, "00", "d0", none⟩], [], []⟩
        none "p1" (some ⟨some "T", some "C", some "a", none⟩)).1.body :=
  ⟨by decide, rfl, by decide⟩

/-- C2 (amended): on the password fallback of PUT/DELETE the Worker
mints and persists no view token and its success body is `{ ok: true }`
with no token; the local server does mint a fresh session token and
persists it in the session store, but its success body is likewise
`{ ok: true }` — the minted token is not included in the response.  Only
the view endpoint returns a token to the caller. -/
theorem claim_C2 :
    (∀ (H : String → String) (dB : String → List Byte → Nat → String → Nat → List Byte)
       (pepper : String) (now : Nat) (nowIso : String) (st : Worker.WState)
       (cookie : Option String) (id : String) (b : MutBody) (post : Worker.DbPost),
       jsTrim (strField b.title) ≠ "" → jsTrim (strField b.content) ≠ "" →
       Worker.isAdmin H pepper st.adminSessions now cookie = false →
       Worker.tokenAuthorized H pepper st.viewTokens id now (strField b.viewToken) = false →
       strField b.password ≠ "" →
       (st.posts.filter (fun p => p.id == id)).head? = some post →
       Worker.verifyPassword dB (strField b.password) post.pwRecord = true →
       (Worker.workerPut H dB pepper now nowIso st cookie id (some b)).2.2.minted = 0 ∧
       (Worker.workerPut H dB pepper now nowIso st cookie id (some b)).1 = okTrue ∧
       jsonKeys (Worker.workerPut H dB pepper now nowIso st cookie id (some b)).1.body = ["ok"]) ∧
    (∀ (H : String → String) (dB : String → List Byte → Nat → String → Nat → List Byte)
       (pepper : String) (now : Nat) (st : Worker.WState)
       (cookie : Option String) (id : String) (b : MutBody) (post : Worker.DbPost),
       Worker.isAdmin H pepper st.adminSessions now cookie = false →
       Worker.tokenAuthorized H pepper st.viewTokens id now (strField b.viewToken) = false →
       strField b.password ≠ "" →
       (st.posts.filter (fun p => p.id == id)).head? = some post →
       Worker.verifyPassword dB (strField b.password) post.pwRecord = true →
       (Worker.workerDelete H dB pepper now st cookie id (some b)).2.2.minted = 0 ∧
       (Worker.workerDelete H dB pepper now st cookie id (some b)).1 = okTrue ∧
       jsonKeys (Worker.workerDelete H dB pepper now st cookie id (some b)).1.body = ["ok"]) ∧
    (∀ (pbl : String → List Byte → Nat → Nat → String → List Byte) (hm : String → String)
       (now : Nat) (nowIso : String) (posts : List LocalSrv.LPost)
       (sessions : LocalSrv.Sessions) (adminCookie sidCookie : Option String)
       (id : String) (b : MutBody) (idx : Nat) (post : LocalSrv.LPost)
       (newSid newToken : String),
       jsTrim (strField b.title) ≠ "" → jsTrim (strField b.content) ≠ "" →
       posts.findIdx? (fun p => p.id == id) = some idx →
       LocalSrv.isAdmin hm sessions adminCookie = false →
       (LocalSrv.verifiedFor hm sessions sidCookie id ||
         LocalSrv.tokenOkFor hm sessions sidCookie id (strField b.viewToken)) = false →
       strField b.password ≠ "" →
       posts[idx]? = some post →
       LocalSrv.verifyPassword pbl (strField b.password) post.password = true →
       (LocalSrv.localPut pbl hm now nowIso posts sessions adminCookie sidCookie id (some b)
           newSid newToken).1 = okTrue ∧
       jsonKeys (LocalSrv.localPut pbl hm now nowIso posts sessions adminCookie sidCookie id
           (some b) newSid newToken).1.body = ["ok"] ∧
       (LocalSrv.localPut pbl hm now nowIso posts sessions adminCookie sidCookie id (some b)
           newSid newToken).2.2.2.minted = 1 ∧
       (∃ (sid : String) (s : LocalSrv.LSession),
         LocalSrv.sessionsGet (LocalSrv.localPut pbl hm now nowIso posts sessions adminCookie
             sidCookie id (some b) newSid newToken).2.2.1 sid = some s ∧
         LocalSrv.mapGet s.tokens id = some ⟨newToken, now⟩)) ∧
    (∀ (pbl : String → List Byte → Nat → Nat → String → List Byte) (hm : String → String)
       (now : Nat) (nowIso : String) (posts : List LocalSrv.LPost)
       (sessions : LocalSrv.Sessions) (adminCookie sidCookie : Option String)
       (id : String) (b : MutBody) (idx : Nat) (post : LocalSrv.LPost)
       (newSid newToken : String),
       posts.findIdx? (fun p => p.id == id) = some idx →
       LocalSrv.isAdmin hm sessions adminCookie = false →
       (LocalSrv.verifiedFor hm sessions sidCookie id ||
         LocalSrv.tokenOkFor hm sessions sidCookie id (strField b.viewToken)) = false →
       strField b.password ≠ "" →
       posts[idx]? = some post →
       LocalSrv.verifyPassword pbl (strField b.password) post.password = true →
       (LocalSrv.localDelete pbl hm now nowIso posts sessions adminCookie sidCookie id (some b)
           newSid newToken).1 = okTrue ∧
       jsonKeys (LocalSrv.localDelete pbl hm now nowIso posts sessions adminCookie sidCookie id
           (some b) newSid newToken).1.body = ["ok"] ∧
       (LocalSrv.localDelete pbl hm now nowIso posts sessions adminCookie sidCookie id (some b)
           newSid newToken).2.2.2.minted = 1 ∧
       (∃ (sid : String) (s : LocalSrv.LSession),
         LocalSrv.sessionsGet (LocalSrv.localDelete pbl hm now nowIso posts sessions adminCookie
             sidCookie id (some b) newSid newToken).2.2.1 sid = some s ∧
         LocalSrv.mapGet s.tokens id = some ⟨newToken, now⟩)) := by
  refine ⟨?_, ?_, ?_, ?_⟩
  · intro H dB pepper now nowIso st cookie id b post hT hC hadm ht hp hpost hv
    have hres := mutAuth_allow_pw H dB pepper st id (strField b.viewToken) (strField b.password)
      now post ht hp hpost hv
    refine ⟨?_, ?_, ?_⟩ <;> simp [Worker.workerPut, hT, hC, hadm, hres, okTrue, jsonKeys,
      jsonKeysObj]
  · intro H dB pepper now st cookie id b post hadm ht hp hpost hv
    have hres := mutAuth_allow_pw H dB pepper st id (strField b.viewToken) (strField b.password)
      now post ht hp hpost hv
    refine ⟨?_, ?_, ?_⟩ <;> simp [Worker.workerDelete, hadm, hres, okTrue, jsonKeys, jsonKeysObj]
  · intro pbl hm now nowIso posts sessions adminCookie sidCookie id b idx post newSid newToken
      hT hC hfind hadm hvt hp hpost hv
    refine ⟨?_, ?_, ?_, ?_⟩
    · simp [LocalSrv.localPut, hT, hC, hfind, hadm, hvt, hp, hpost, hv]
    · simp [LocalSrv.localPut, hT, hC, hfind, hadm, hvt, hp, hpost, hv, okTrue, jsonKeys,
        jsonKeysObj]
    · simp [LocalSrv.localPut, hT, hC, hfind, hadm, hvt, hp, hpost, hv]
    · simp only [LocalSrv.localPut, hT, hC, hfind, hadm, hvt, hp, hpost, hv, ne_eq,
        not_false_eq_true, if_false, if_true, Bool.false_eq_true, not_true_eq_false]
      exact ⟨_, _, sessionsGet_set _ _ _, mapGet_set _ _ _⟩
  · intro pbl hm now nowIso posts sessions adminCookie sidCookie id b idx post newSid newToken
      hfind hadm hvt hp hpost hv
    refine ⟨?_, ?_, ?_, ?_⟩
    · simp [LocalSrv.localDelete, hfind, hadm, hvt, hp, hpost, hv]
    · simp [LocalSrv.localDelete, hfind, hadm, hvt, hp, hpost, hv, okTrue, jsonKeys,
        jsonKeysObj]
    · simp [LocalSrv.localDelete, hfind, hadm, hvt, hp, hpost, hv]
    · simp only [LocalSrv.localDelete, hfind, hadm, hvt, hp, hpost, hv, ne_eq,
        not_false_eq_true, if_false, if_true, Bool.false_eq_true, not_true_eq_false]
      exact ⟨_, _, sessionsGet_set _ _ _, mapGet_set _ _ _⟩

theorem claim_C2_witness :
    (Worker.workerPut cHash cDeriveBits "p" 5 "T1"
        ⟨[⟨"p2", "t", "a", "c", "00", 1000, "sha256", 32, "00", "d0", none⟩], [], []⟩
        none "p2" (some ⟨some "T", some "C", some "a", none⟩)).2.2.minted = 0 ∧
    (LocalSrv.localPut cPbkdf2Sync cHash 5 "T1"
        [⟨"p1", "t", "a", "c", ⟨"00", 1000, "sha256", 32, "00"⟩, "d0", none⟩] [] none none
        "p1" (some ⟨some "T", some "C", some "a", none⟩) "s1" "v1").2.2.2.minted = 1 ∧
    (∃ (sid : String) (s : LocalSrv.LSession),
      LocalSrv.sessionsGet (LocalSrv.localPut cPbkdf2Sync cHash 5 "T1"
          [⟨"p1", "t", "a", "c", ⟨"00", 1000, "sha256", 32, "00"⟩, "d0", none⟩] [] none none
          "p1" (some ⟨some "T", some "C", some "a", none⟩) "s1" "v1").2.2.1 sid = some s ∧
      LocalSrv.mapGet s.tokens "p1" = some ⟨"v1", 5⟩) :=
  ⟨(claim_C2.1 cHash cDeriveBits "p" 5 "T1"
      ⟨[⟨"p2", "t", "a", "c", "00", 1000, "sha256", 32, "00", "d0", none⟩], [], []⟩
      none "p2" ⟨some "T", some "C", some "a", none⟩
      ⟨"p2", "t", "a", "c", "00", 1000, "sha256", 32, "00", "d0", none⟩
      (by decide) (by decide) (by decide) (by decide) (by decide) (by decide) (by decide)).1,
   (claim_C2.2.2.1 cPbkdf2Sync cHash 5 "T1"
      [⟨"p1", "t", "a", "c", ⟨"00", 1000, "sha256", 32, "00"⟩, "d0", none⟩] [] none none
      "p1" ⟨some "T", some "C", some "a", none⟩ 0
      ⟨"p1", "t", "a", "c", ⟨"00", 1000, "sha256", 32, "00"⟩, "d0", none⟩ "s1" "v1"
      (by decide) (by decide) (by decide) (by decide) (by decide) (by decide) (by decide)
      (by decide)).2.2.1,
   (claim_C2.2.2.1 cPbkdf2Sync cHash 5 "T1"
      [⟨"p1", "t", "a", "c", ⟨"00", 1000, "sha256", 32, "00"⟩, "d0", none⟩] [] none none
      "p1" ⟨some "T", some "C", some "a", none⟩ 0
      ⟨"p1", "t", "a", "c", ⟨"00", 1000, "sha256", 32, "00"⟩, "d0", none⟩ "s1" "v1"
      (by decide) (by decide) (by decide) (by decide) (by decide) (by decide) (by decide)
      (by decide)).2.2.2⟩

/-- C3 counterexample: the unauthorized responses are not uniform.  On
the same existing post, a Worker DELETE with no credential answers
`401 {"error":"Password required"}` while one with a wrong password
answers `401 {"error":"Invalid password"}` — different bodies — and a
DELETE naming a nonexistent post id with a password answers `404`, not
`401`, revealing both the failing branch and the post's existence. -/
theorem claim_C3_cex :
    (Worker.workerDelete cHash cDeriveBits "p" 5
        ⟨[⟨"p1", "t", "a", "c", "00", 1000, "sha256", 32, "00", "d0", none⟩], [], []⟩
        none "p1" (some ⟨none, none, none, none⟩)).1 = jerr 401 "Password required" ∧
    (Worker.workerDelete cHash cDeriveBits "p" 5
        ⟨[⟨"p1", "t", "a", "c", "00", 1000, "sha256", 32, "00", "d0", none⟩], [], []⟩
        none "p1" (some ⟨none, none, some "b", none⟩)).1 = jerr 401 "Invalid password" ∧
    jerr 401 "Password required" ≠ jerr 401 "Invalid password" ∧
    (Worker.workerDelete cHash cDeriveBits "p" 5
        ⟨[⟨"p1", "t", "a", "c", "00", 1000, "sha256", 32, "00", "d0", none⟩], [], []⟩
        none "p9" (some ⟨none, none, some "b", none⟩)).1.status = 404 ∧
    (Worker.workerDelete cHash cDeriveBits "p" 5
        ⟨[⟨"p1", "t", "a", "c", "00", 1000, "sha256", 32, "00", "d0", none⟩], [], []⟩
        none "p1" (some ⟨none, none, some "b", none⟩)).1.status = 401 :=
  ⟨rfl, rfl,
   fun h => absurd (congrArg (fun r => match r.body with
     | JVal.obj (("error", JVal.str m) :: _) => m
     | _ => "") h) (by decide),
   rfl, rfl⟩

/-- C3 (amended): the failure responses of the mutate path are
distinguishable, not uniform.  In both variants: a missing credential
yields `401 "Password required"`, a wrong password on an existing post
yields `401 "Invalid password"`, and a nonexistent post id yields
`404 "Not found"` (in the Worker only after a password was supplied; the
local server checks existence before any credential), so the observable
response reveals which branch failed and whether the post exists. -/
theorem claim_C3 :
    (∀ (H : String → String) (dB : String → List Byte → Nat → String → Nat → List Byte)
       (pepper : String) (now : Nat) (st : Worker.WState)
       (cookie : Option String) (id : String) (b : MutBody),
       Worker.isAdmin H pepper st.adminSessions now cookie = false →
       Worker.tokenAuthorized H pepper st.viewTokens id now (strField b.viewToken) = false →
       strField b.password = "" →
       (Worker.workerDelete H dB pepper now st cookie id (some b)).1 =
         jerr 401 "Password required") ∧
    (∀ (H : String → String) (dB : String → List Byte → Nat → String → Nat → List Byte)
       (pepper : String) (now : Nat) (st : Worker.WState)
       (cookie : Option String) (id : String) (b : MutBody),
       Worker.isAdmin H pepper st.adminSessions now cookie = false →
       Worker.tokenAuthorized H pepper st.viewTokens id now (strField b.viewToken) = false →
       strField b.password ≠ "" →
       (st.posts.filter (fun p => p.id == id)).head? = none →
       (Worker.workerDelete H dB pepper now st cookie id (some b)).1 =
         jerr 404 "Not found") ∧
    (∀ (H : String → String) (dB : String → List Byte → Nat → String → Nat → List Byte)
       (pepper : String) (now : Nat) (st : Worker.WState)
       (cookie : Option String) (id : String) (b : MutBody) (post : Worker.DbPost),
       Worker.isAdmin H pepper st.adminSessions now cookie = false →
       Worker.tokenAuthorized H pepper st.viewTokens id now (strField b.viewToken) = false →
       strField b.password ≠ "" →
       (st.posts.filter (fun p => p.id == id)).head? = some post →
       Worker.verifyPassword dB (strField b.password) post.pwRecord = false →
       (Worker.workerDelete H dB pepper now st cookie id (some b)).1 =
         jerr 401 "Invalid password") ∧
    (∀ (pbl : String → List Byte → Nat → Nat → String → List Byte) (hm : String → String)
       (now : Nat) (nowIso : String) (posts : List LocalSrv.LPost)
       (sessions : LocalSrv.Sessions) (adminCookie sidCookie : Option String)
       (id : String) (b : MutBody) (newSid newToken : String),
       posts.findIdx? (fun p => p.id == id) = none →
       (LocalSrv.localDelete pbl hm now nowIso posts sessions adminCookie sidCookie id (some b)
           newSid newToken).1 = jerr 404 "Not found") ∧
    (∀ (pbl : String → List Byte → Nat → Nat → String → List Byte) (hm : String → String)
       (now : Nat) (nowIso : String) (posts : List LocalSrv.LPost)
       (sessions : LocalSrv.Sessions) (adminCookie sidCookie : Option String)
       (id : String) (b : MutBody) (idx : Nat) (newSid newToken : String),
       posts.findIdx? (fun p => p.id == id) = some idx →
       LocalSrv.isAdmin hm sessions adminCookie = false →
       (LocalSrv.verifiedFor hm sessions sidCookie id ||
         LocalSrv.tokenOkFor hm sessions sidCookie id (strField b.viewToken)) = false →
       strField b.password = "" →
       (LocalSrv.localDelete pbl hm now nowIso posts sessions adminCookie sidCookie id (some b)
           newSid newToken).1 = jerr 401 "Password required") ∧
    (∀ (pbl : String → List Byte → Nat → Nat → String → List Byte) (hm : String → String)
       (now : Nat) (nowIso : String) (posts : List LocalSrv.LPost)
       (sessions : LocalSrv.Sessions) (adminCookie sidCookie : Option String)
       (id : String) (b : MutBody) (idx : Nat) (post : LocalSrv.LPost)
       (newSid newToken : String),
       posts.findIdx? (fun p => p.id == id) = some idx →
       LocalSrv.isAdmin hm sessions adminCookie = false →
       (LocalSrv.verifiedFor hm sessions sidCookie id ||
         LocalSrv.tokenOkFor hm sessions sidCookie id (strField b.viewToken)) = false →
       strField b.password ≠ "" →
       posts[idx]? = some post →
       LocalSrv.verifyPassword pbl (strField b.password) post.password = false →
       (LocalSrv.localDelete pbl hm now nowIso posts sessions adminCookie sidCookie id (some b)
           newSid newToken).1 = jerr 401 "Invalid password") ∧
    jerr 401 "Password required" ≠ jerr 401 "Invalid password" ∧
    (jerr 404 "Not found").status ≠ (jerr 401 "Invalid password").status := by
  refine ⟨?_, ?_, ?_, ?_, ?_, ?_, ?_, by decide⟩
  · intro H dB pepper now st cookie id b hadm ht hpw
    simp [Worker.workerDelete, hadm, Worker.mutAuthNonAdmin, ht, hpw]
  · intro H dB pepper now st cookie id b hadm ht hp hpostn
    simp [Worker.workerDelete, hadm, Worker.mutAuthNonAdmin, ht, hp, hpostn]
  · intro H dB pepper now st cookie id b post hadm ht hp hpost hv
    simp [Worker.workerDelete, hadm, Worker.mutAuthNonAdmin, ht, hp, hpost, hv]
  · intro pbl hm now nowIso posts sessions adminCookie sidCookie id b newSid newToken hfindn
    simp [LocalSrv.localDelete, hfindn]
  · intro pbl hm now nowIso posts sessions adminCookie sidCookie id b idx newSid newToken
      hfind hadm hvt hpw
    simp [LocalSrv.localDelete, hfind, hadm, hvt, hpw]
  · intro pbl hm now nowIso posts sessions adminCookie sidCookie id b idx post newSid newToken
      hfind hadm hvt hp hpost hv
    simp [LocalSrv.localDelete, hfind, hadm, hvt, hp, hpost, hv]
  · intro h
    exact absurd (congrArg (fun r => match r.body with
      | JVal.obj (("error", JVal.str m) :: _) => m
      | _ => "") h) (by decide)

theorem claim_C3_witness :
    (Worker.workerDelete cHash cDeriveBits "p" 5
        ⟨[⟨"p1", "t", "a", "c", "00", 1000, "sha256", 32, "00", "d0", none⟩], [], []⟩
        none "p1" (some ⟨none, none, none, none⟩)).1 = jerr 401 "Password required" ∧
    (LocalSrv.localDelete cPbkdf2Sync cHash 5 "T1"
        [⟨"p1", "t", "a", "c", ⟨"00", 1000, "sha256", 32, "00"⟩, "d0", none⟩] [] none none
        "p1" (some ⟨none, none, some "b", none⟩) "s1" "v1").1 = jerr 401 "Invalid password" :=
  ⟨claim_C3.1 cHash cDeriveBits "p" 5
     ⟨[⟨"p1", "t", "a", "c", "00", 1000, "sha256", 32, "00", "d0", none⟩], [], []⟩
     none "p1" ⟨none, none, none, none⟩ (by decide) (by decide) (by decide),
   claim_C3.2.2.2.2.2.1 cPbkdf2Sync cHash 5 "T1"
     [⟨"p1", "t", "a", "c", ⟨"00", 1000, "sha256", 32, "00"⟩, "d0", none⟩] [] none none
     "p1" ⟨none, none, some "b", none⟩ 0
     ⟨"p1", "t", "a", "c", ⟨"00", 1000, "sha256", 32, "00"⟩, "d0", none⟩ "s1" "v1"
     (by decide) (by decide) (by decide) (by decide) (by decide) (by decide)⟩
